import Mathlib

/-!
Shallow embedding of the wg-portal peer/device reconciliation engine
(package server, peer and user lifecycle operations) together with the
collaborator contracts it calls into: the Peer/Device/User repositories,
the Interface Controller and the Address Allocator.

The reconciliation engine itself is translated statement by statement from
the source file (PrepareNewPeer, CreatePeer, UpdatePeer, DeletePeer,
RestoreWireGuardInterface, WriteWireGuardConfigFile, CreateUser,
UpdateUser, DeleteUser, CreateUserDefaultPeer).  The collaborators are not
part of the analysed sources, so they are modelled from the specification
(section 6, External Interfaces), as noted on each definition.

Modelling decisions:
* Go pointer values of type pointer-to-time are modelled as `Option Nat`
  where the `Nat` is the address of the pointed-to variable; pointer
  equality is address equality.  Go time values themselves never influence
  the control flow of the engine, only pointer identity and nil-ness do,
  so the time payload is omitted.  Fresh stack or heap locations are drawn
  from a monotone counter `nextAddr` carried in the state: a by-value
  parameter of a call receives a fresh address, as in Go.
* External randomness (wgtypes key generation) is modelled as finite
  streams of outcomes carried in the state; an exhausted stream models a
  generation failure.
* Fallible external calls (interface controller mutations, repository
  writes, the config-file write) fail exactly when their call descriptor
  is listed in the `failures` field of the state, which makes every
  failure scenario an explicit concrete input.
* Every operation returns the final state together with an
  `Except String` outcome, so the state reached at the point of an error
  is observable, exactly as the side effects already performed by the Go
  code persist when it returns an error.
-/

set_option autoImplicit false

/-- Wrapping of an error with a contextual message, as done by
errors.WithMessage and errors.Wrap in the source. -/
def withMessage (msg : String) (e : String) : String := msg ++ ": " ++ e

/-- Modelled from the spec: common.ListToString joins an address list into
the deterministic comma-separated string used by the renderer and the
stored IPsStr field. -/
def listToString (l : List String) : String := String.intercalate ", " l

/-- Modelled from the spec: a stable short fingerprint computed
deterministically from the public key; stands in for the hex md5 digest
used by the source (the digest internals are external to the engine). -/
def md5Hex (s : String) : String :=
  toString (s.foldl (fun a c => (a * 31 + c.toNat) % 1000003) 7)

/-- UID of a peer, fmt.Sprintf u-percent-x of the digest of the public key. -/
def uidOf (pub : String) : String := "u" ++ md5Hex pub

/-- A key pair as produced by wgtypes.GeneratePrivateKey: the private key
and the public key derived from it. -/
structure KeyPair where
  priv : String
  pub : String
  deriving DecidableEq

/-- Modelled from the spec: the peerConfig handed to the Interface
Controller includes public key, preshared key and the allowed-IPs list. -/
structure PeerConfig where
  publicKey : String
  presharedKey : String
  allowedIPs : List String
  deriving DecidableEq

/-- Modelled from the spec: a device record of the Device Repository:
name, address pools (dev.IPs), and the device-level allowed-IPs string. -/
structure Device where
  deviceName : String := ""
  allowedIPsStr : String := ""
  ips : List String := []
  deriving DecidableEq

/-- Peer record, with the fields the engine reads or writes.  DeactivatedAt
is a pointer to a time value, modelled by the address of the pointed-to
variable (none = nil = active).  livePeer models the embedded pointer to
the live interface configuration of this peer: populated exactly when the
peer is currently configured on the live interface, none otherwise; it is
filled in by the repository queries, never stored. -/
structure Peer where
  publicKey : String := ""
  presharedKey : String := ""
  privateKey : String := ""
  uid : String := ""
  email : String := ""
  identifier : String := ""
  deviceName : String := ""
  ips : List String := []
  ipsStr : String := ""
  allowedIPsStr : String := ""
  isNew : Bool := false
  createdBy : String := ""
  updatedBy : String := ""
  deactivatedAt : Option Nat := none
  livePeer : Option Unit := none
  deriving DecidableEq

/-- Peer.GetConfig: the configuration pushed to the Interface Controller. -/
def Peer.getConfig (p : Peer) : PeerConfig :=
  { publicKey := p.publicKey, presharedKey := p.presharedKey, allowedIPs := p.ips }

/-- Soft-delete marker, gorm.DeletedAt: valid = true means deleted.  The
timestamp payload never influences the engine and is omitted. -/
structure DeletedAt where
  valid : Bool := false
  deriving DecidableEq

/-- User record of the User Repository, with the fields the engine uses. -/
structure User where
  email : String := ""
  firstname : String := ""
  lastname : String := ""
  deletedAt : DeletedAt := {}
  deriving DecidableEq

/-- Descriptor of a fallible external call; a call fails exactly when its
descriptor is listed in the failure-injection field of the state. -/
inductive CallId where
  | wgAdd (device pubKey : String)
  | wgUpdate (device pubKey : String)
  | wgRemove (device pubKey : String)
  | repoCreatePeer (pubKey : String)
  | repoUpdatePeer (pubKey : String)
  | repoDeletePeer (pubKey : String)
  | userCreate (email : String)
  | userUpdate (email : String)
  | userDelete (email : String)
  | cfgWrite (device : String)
  deriving DecidableEq

/-- The whole world the engine acts on: the Device, Peer and User
repositories, the live interface state owned by the Interface Controller,
the pool contents backing the Address Allocator, the external randomness
streams, the failure-injection set, the address counter for pointer
allocation, and the config-file output settings. -/
structure ServerState where
  devices : List Device := []
  peers : List Peer := []
  users : List User := []
  /-- Live interface state: one entry per configured peer, device name
  paired with the pushed configuration. -/
  wg : List (String × PeerConfig) := []
  /-- Modelled from the spec: the usable addresses of each pool in
  ascending order, network/broadcast/reserved addresses already left out. -/
  pools : List (String × List String) := []
  pskStream : List String := []
  kpStream : List KeyPair := []
  failures : List CallId := []
  nextAddr : Nat := 0
  cfgPath : String := ""
  cfgWrites : List String := []
  createDefaultPeer : Bool := false
  deriving DecidableEq

/-- Fresh address allocation: models taking the address of a newly created
Go variable (a by-value parameter or a local); distinct variables have
distinct addresses. -/
def allocAddr (s : ServerState) : Nat × ServerState :=
  (s.nextAddr, { s with nextAddr := s.nextAddr + 1 })

/-- A pointer stored in a peer record is valid for a state when it was
allocated earlier, i.e. lies below the address counter; every pointer a
caller can have stored satisfies this. -/
def Peer.validPtr (p : Peer) (s : ServerState) : Prop :=
  ∀ a, p.deactivatedAt = some a → a < s.nextAddr

instance (p : Peer) (s : ServerState) : Decidable (p.validPtr s) := by
  unfold Peer.validPtr
  exact inferInstance

/-- True when the live interface holds a peer with this key on this device. -/
def wgContains (wg : List (String × PeerConfig)) (device pubKey : String) : Bool :=
  wg.any (fun e => decide (e.1 = device ∧ e.2.publicKey = pubKey))

/-- Modelled from the spec: Interface Controller AddPeer(device, peerConfig). -/
def wgAddPeer (s : ServerState) (device : String) (cfg : PeerConfig) :
    ServerState × Except String Unit :=
  if CallId.wgAdd device cfg.publicKey ∈ s.failures then (s, .error "device error")
  else ({ s with wg := s.wg ++ [(device, cfg)] }, .ok ())

/-- Modelled from the spec: Interface Controller UpdatePeer(device,
peerConfig): replaces the configuration of the matching peer in place. -/
def wgUpdatePeerCfg (s : ServerState) (device : String) (cfg : PeerConfig) :
    ServerState × Except String Unit :=
  if CallId.wgUpdate device cfg.publicKey ∈ s.failures then (s, .error "device error")
  else
    ({ s with wg := s.wg.map (fun e =>
        if e.1 = device ∧ e.2.publicKey = cfg.publicKey then (device, cfg) else e) },
     .ok ())

/-- Modelled from the spec: Interface Controller RemovePeer(device, publicKey). -/
def wgRemovePeer (s : ServerState) (device pubKey : String) :
    ServerState × Except String Unit :=
  if CallId.wgRemove device pubKey ∈ s.failures then (s, .error "device error")
  else
    ({ s with wg := s.wg.filter (fun e => decide (¬ (e.1 = device ∧ e.2.publicKey = pubKey))) },
     .ok ())

/-- Modelled from the spec: Device Repository GetDevice(name); an unknown
name yields the zero-value record. -/
def GetDevice (s : ServerState) (device : String) : Device :=
  (s.devices.find? (fun d => decide (d.deviceName = device))).getD {}

/-- Decoration of a repository peer record with its live-interface
presence: the query layer fills the livePeer pointer exactly when the
live interface currently holds this peer on its device. -/
def decorate (s : ServerState) (p : Peer) : Peer :=
  { p with livePeer := if wgContains s.wg p.deviceName p.publicKey then some () else none }

/-- Modelled from the spec: Peer Repository GetPeerByKey(key), peer records
keyed by public key; absent keys yield absent. -/
def GetPeerByKey (s : ServerState) (key : String) : Option Peer :=
  (s.peers.find? (fun p => decide (p.publicKey = key))).map (decorate s)

/-- Modelled from the spec: Peer Repository GetActivePeers(device): the
stored peers of this device whose DeactivatedAt is unset. -/
def GetActivePeers (s : ServerState) (device : String) : List Peer :=
  ((s.peers.filter (fun p => decide (p.deviceName = device ∧ p.deactivatedAt = none))).map
    (decorate s))

/-- Modelled from the spec: Peer Repository GetPeersByMail(email). -/
def GetPeersByMail (s : ServerState) (email : String) : List Peer :=
  ((s.peers.filter (fun p => decide (p.email = email))).map (decorate s))

/-- Modelled from the spec: the Address Allocator query
GetAvailableIp(device, pool): first address of the pool not assigned to
any existing peer of the device, active or not; errors when exhausted. -/
def GetAvailableIp (s : ServerState) (device pool : String) : Except String String :=
  let used := (s.peers.filter (fun p => decide (p.deviceName = device))).flatMap Peer.ips
  match ((s.pools.find? (fun pr => decide (pr.1 = pool))).map Prod.snd).getD [] |>.filter
      (fun a => decide (a ∉ used)) with
  | [] => .error "no more available address in pool"
  | a :: _ => .ok a

/-- Modelled from the spec: Peer Repository CreatePeer(peer). -/
def peersCreatePeer (s : ServerState) (p : Peer) : ServerState × Except String Unit :=
  if CallId.repoCreatePeer p.publicKey ∈ s.failures then (s, .error "database error")
  else ({ s with peers := s.peers ++ [p] }, .ok ())

/-- Modelled from the spec: Peer Repository UpdatePeer(peer), keyed by
public key: the stored record with this key is replaced. -/
def peersUpdatePeer (s : ServerState) (p : Peer) : ServerState × Except String Unit :=
  if CallId.repoUpdatePeer p.publicKey ∈ s.failures then (s, .error "database error")
  else ({ s with peers := s.peers.map (fun q => if q.publicKey = p.publicKey then p else q) },
        .ok ())

/-- Modelled from the spec: Peer Repository DeletePeer(peer), keyed by
public key. -/
def peersDeletePeer (s : ServerState) (p : Peer) : ServerState × Except String Unit :=
  if CallId.repoDeletePeer p.publicKey ∈ s.failures then (s, .error "database error")
  else ({ s with peers := s.peers.filter (fun q => decide (¬ q.publicKey = p.publicKey)) },
        .ok ())

/-- Modelled from the spec: User Repository GetUserUnscoped(email): the
stored record for this email, soft-deleted ones included. -/
def GetUserUnscoped (s : ServerState) (email : String) : Option User :=
  s.users.find? (fun u => decide (u.email = email))

/-- Modelled from the spec: User Repository GetUser(email): the stored
record for this email, absent when soft-deleted. -/
def GetUser (s : ServerState) (email : String) : Option User :=
  s.users.find? (fun u => decide (u.email = email ∧ u.deletedAt.valid = false))

/-- Modelled from the spec: User Repository CreateUser(user). -/
def usersCreateUser (s : ServerState) (u : User) : ServerState × Except String Unit :=
  if CallId.userCreate u.email ∈ s.failures then (s, .error "database error")
  else ({ s with users := s.users ++ [u] }, .ok ())

/-- Modelled from the spec: User Repository UpdateUser(user), keyed by
email: the stored record for this email is replaced in place. -/
def usersUpdateUser (s : ServerState) (u : User) : ServerState × Except String Unit :=
  if CallId.userUpdate u.email ∈ s.failures then (s, .error "database error")
  else ({ s with users := s.users.map (fun v => if v.email = u.email then u else v) }, .ok ())

/-- Modelled from the spec: User Repository DeleteUser(user): persists the
soft-delete by marking the stored record for this email as deleted. -/
def usersDeleteUser (s : ServerState) (u : User) : ServerState × Except String Unit :=
  if CallId.userDelete u.email ∈ s.failures then (s, .error "database error")
  else
    ({ s with users := s.users.map (fun v =>
        if v.email = u.email then { v with deletedAt := { valid := true } } else v) },
     .ok ())

/-- Modelled from the spec: wgtypes.GenerateKey, drawing the preshared key
from the external randomness stream; an exhausted stream is a generation
failure. -/
def generateKey (s : ServerState) : ServerState × Except String String :=
  match s.pskStream with
  | [] => (s, .error "rng error")
  | k :: rest => ({ s with pskStream := rest }, .ok k)

/-- Modelled from the spec: wgtypes.GeneratePrivateKey, drawing a fresh
key pair from the external randomness stream; an exhausted stream is a
generation failure. -/
def generatePrivateKey (s : ServerState) : ServerState × Except String KeyPair :=
  match s.kpStream with
  | [] => (s, .error "rng error")
  | kp :: rest => ({ s with kpStream := rest }, .ok kp)

/-!
Reconciliation engine, translated function by function from the source
file of package server.  Each function takes the world state and returns
the final world state together with the Go error result.  Sequencing of
fallible steps uses bindStep, the direct rendering of the Go pattern
"call; if err != nil, return the wrapped error; continue otherwise".
-/

/-- Sequencing of one fallible step: on error, return immediately with the
error wrapped and the state the step left behind; on success, continue
with that state and the produced value. -/
def bindStep {α β : Type} (r : ServerState × Except String α) (wrap : String → String)
    (k : ServerState → α → ServerState × Except String β) : ServerState × Except String β :=
  match r with
  | (s, .error e) => (s, .error (wrap e))
  | (s, .ok a) => k s a

/-- Allocation loop of PrepareNewPeer and CreatePeer: one address per
device pool, in pool order, each obtained from the Allocator against the
current repository contents (the repository is not changed in between). -/
def allocateIPs (s : ServerState) (device : String) : List String → Except String (List String)
  | [] => .ok []
  | pool :: rest =>
    match GetAvailableIp s device pool with
    | .error e => .error e
    | .ok ip =>
      match allocateIPs s device rest with
      | .error e => .error e
      | .ok ips => .ok (ip :: ips)

/-- PrepareNewPeer(device): builds an unsaved peer draft: per-pool address
allocation, preshared key and key pair generation, UID computation. -/
def PrepareNewPeer (s : ServerState) (device : String) : ServerState × Except String Peer :=
  let dev := GetDevice s device
  bindStep (s, allocateIPs s device dev.ips)
      (withMessage "failed to get available IP addresses") fun s ips =>
  bindStep (generateKey s) (withMessage "failed to generate key") fun s psk =>
  bindStep (generatePrivateKey s) (withMessage "failed to generate private key") fun s kp =>
  (s, .ok { isNew := true
            allowedIPsStr := dev.allowedIPsStr
            ips := ips
            ipsStr := listToString ips
            presharedKey := psk
            privateKey := kp.priv
            publicKey := kp.pub
            uid := uidOf kp.pub })

/-- Address-assignment step of CreatePeer: when the incoming peer carries
no addresses, allocate one per device pool and recompute the joined
string; otherwise keep the peer as is.  A pure read of the state. -/
def assignIPs (s : ServerState) (device : String) (dev : Device) (peerA : Peer) :
    Except String Peer :=
  if peerA.ips.isEmpty then
    match allocateIPs s device dev.ips with
    | .error e => .error (withMessage "failed to get available IP addresses" e)
    | .ok ips => .ok { peerA with ips := ips, ipsStr := listToString ips }
  else .ok peerA

/-- Key-generation step of CreatePeer: when the incoming private key is
empty, generate a preshared key and a key pair, overwriting PresharedKey,
PrivateKey and PublicKey; otherwise keep the peer as is. -/
def regenerateKeys (s : ServerState) (peerB : Peer) : ServerState × Except String Peer :=
  if peerB.privateKey = "" then
    bindStep (generateKey s) (withMessage "failed to generate key") fun s2 psk =>
    bindStep (generatePrivateKey s2) (withMessage "failed to generate private key") fun s3 kp =>
    (s3, .ok { peerB with presharedKey := psk, privateKey := kp.priv, publicKey := kp.pub })
  else (s, .ok peerB)

/-- Field preparation part of CreatePeer(device, peer): overwrite
AllowedIPsStr from the device, allocate addresses when none are set,
generate a key pair when the private key is empty (this also overwrites
PresharedKey and PublicKey), then overwrite DeviceName from the device and
recompute the UID.  Ends right before the interface push of CreatePeer. -/
def createPeerPrepared (s0 : ServerState) (device : String) (peer0 : Peer) :
    ServerState × Except String Peer :=
  let dev := GetDevice s0 device
  let peerA := { peer0 with allowedIPsStr := dev.allowedIPsStr }
  bindStep (s0, assignIPs s0 device dev peerA) id fun s1 peerB =>
  bindStep (regenerateKeys s1 peerB) id fun s2 peerC =>
  (s2, .ok { peerC with deviceName := dev.deviceName, uid := uidOf peerC.publicKey })

/-- WriteWireGuardConfigFile(device): a no-op when no config directory is
configured; otherwise the access check, the rendering of the device with
its active peers, and the file write are external effects, collapsed into
one call that fails exactly when injected to and otherwise records the
device whose file was written. -/
def WriteWireGuardConfigFile (s : ServerState) (device : String) :
    ServerState × Except String Unit :=
  if s.cfgPath = "" then (s, .ok ())
  else if CallId.cfgWrite device ∈ s.failures then
    (s, .error "failed to write WireGuard config file")
  else ({ s with cfgWrites := s.cfgWrites ++ [device] }, .ok ())

/-- CreatePeer(device, peer): prepare the fields, push to the Interface
Controller when the peer is active (DeactivatedAt unset), then persist to
the Peer Repository, then rewrite the config file. -/
def CreatePeer (s0 : ServerState) (device : String) (peer0 : Peer) :
    ServerState × Except String Unit :=
  bindStep (createPeerPrepared s0 device peer0) id fun s1 peerD =>
  bindStep (
      if peerD.deactivatedAt = none then
        bindStep (wgAddPeer s1 device peerD.getConfig)
            (withMessage "failed to add WireGuard peer") fun s2 u => (s2, .ok u)
      else (s1, .ok ())) id fun s2 _ =>
  bindStep (peersCreatePeer s2 peerD) (withMessage "failed to create peer") fun s3 _ =>
  WriteWireGuardConfigFile s3 device

/-- UpdatePeer(peer, updateTime): the updateTime argument is passed by
value, so the callee works on a fresh copy whose address is a fresh
allocation; the first switch case compares the DeactivatedAt pointer of
the incoming peer against the address of that copy.  The second and third
cases apply when the incoming peer is active, choosing update or add by
whether the stored record is currently present on the live interface.
Then the record is persisted and the config file rewritten. -/
def UpdatePeer (s0 : ServerState) (peer : Peer) : ServerState × Except String Unit :=
  let (uaddr, s1) := allocAddr s0
  let currentLive : Bool :=
    match GetPeerByKey s1 peer.publicKey with
    | some q => q.livePeer.isSome
    | none => false
  bindStep (
      if peer.deactivatedAt = some uaddr then
        wgRemovePeer s1 peer.deviceName peer.publicKey
      else if peer.deactivatedAt = none ∧ currentLive = true then
        wgUpdatePeerCfg s1 peer.deviceName peer.getConfig
      else if peer.deactivatedAt = none ∧ currentLive = false then
        wgAddPeer s1 peer.deviceName peer.getConfig
      else (s1, .ok ()))
      (withMessage "failed to update WireGuard peer") fun s2 _ =>
  bindStep (peersUpdatePeer s2 peer) (withMessage "failed to update peer") fun s3 _ =>
  WriteWireGuardConfigFile s3 peer.deviceName

/-- DeletePeer(peer): remove from the Interface Controller, then delete
from the Peer Repository, then rewrite the config file. -/
def DeletePeer (s0 : ServerState) (peer : Peer) : ServerState × Except String Unit :=
  bindStep (wgRemovePeer s0 peer.deviceName peer.publicKey)
      (withMessage "failed to remove WireGuard peer") fun s1 _ =>
  bindStep (peersDeletePeer s1 peer) (withMessage "failed to remove peer") fun s2 _ =>
  WriteWireGuardConfigFile s2 peer.deviceName

/-- Loop body of RestoreWireGuardInterface over the snapshot of active
peers: each one absent from the live interface is pushed; the first push
error aborts the loop. -/
def restoreLoop (s : ServerState) (device : String) : List Peer → ServerState × Except String Unit
  | [] => (s, .ok ())
  | p :: rest =>
    if p.livePeer = none then
      bindStep (wgAddPeer s device p.getConfig)
          (withMessage "failed to add WireGuard peer") fun s1 _ =>
      restoreLoop s1 device rest
    else restoreLoop s device rest

/-- RestoreWireGuardInterface(device): reconciliation pass pushing every
active repository peer absent from the live interface. -/
def RestoreWireGuardInterface (s : ServerState) (device : String) :
    ServerState × Except String Unit :=
  restoreLoop s device (GetActivePeers s device)

/-- Reactivation loop of UpdateUser: each owned peer has DeactivatedAt
cleared and is passed to UpdatePeer; per-peer errors are logged only, the
loop always continues from the state the failed call left behind. -/
def reactivatePeers (s : ServerState) : List Peer → ServerState
  | [] => s
  | p :: rest => reactivatePeers (UpdatePeer s { p with deactivatedAt := none }).1 rest

/-- Deactivation loop of DeleteUser: a fresh time value is created per
iteration (its address is a fresh allocation), each owned peer has
DeactivatedAt set to its address and is passed to UpdatePeer; per-peer
errors are logged only. -/
def deactivatePeers (s : ServerState) : List Peer → ServerState
  | [] => s
  | p :: rest =>
    let (a, s1) := allocAddr s
    deactivatePeers (UpdatePeer s1 { p with deactivatedAt := some a }).1 rest

/-- DeleteUser(user): read the current record, persist the soft-delete,
and when the user was previously active deactivate every owned peer
best-effort.  Reading the Valid field of an absent current record is a
nil-pointer dereference in the source, modelled as a runtime error. -/
def DeleteUser (s0 : ServerState) (user : User) : ServerState × Except String Unit :=
  let currentUser := GetUserUnscoped s0 user.email
  bindStep (usersDeleteUser s0 user)
      (withMessage "failed to delete user in manager") fun s1 _ =>
  match currentUser with
  | none => (s1, .error "runtime error: invalid memory address or nil pointer dereference")
  | some cu =>
    if cu.deletedAt.valid = false then
      (deactivatePeers s1 (GetPeersByMail s1 user.email), .ok ())
    else (s1, .ok ())

/-- UpdateUser(user): an incoming record marked deleted is redirected to
DeleteUser; otherwise the current record is read, the update persisted,
and when the current record was soft-deleted every owned peer is
reactivated best-effort.  Reading the Valid field of an absent current
record is a nil-pointer dereference in the source, modelled as a runtime
error. -/
def UpdateUser (s0 : ServerState) (user : User) : ServerState × Except String Unit :=
  if user.deletedAt.valid then DeleteUser s0 user
  else
    let currentUser := GetUserUnscoped s0 user.email
    bindStep (usersUpdateUser s0 user)
        (withMessage "failed to update user in manager") fun s1 _ =>
    match currentUser with
    | none => (s1, .error "runtime error: invalid memory address or nil pointer dereference")
    | some cu =>
      if cu.deletedAt.valid then
        (reactivatePeers s1 (GetPeersByMail s1 user.email), .ok ())
      else (s1, .ok ())

/-- CreateUserDefaultPeer(email, device): a no-op when the user is absent
or deleted, when the default-peer policy is off, or when the user already
owns a peer; otherwise creates one default-labelled peer. -/
def CreateUserDefaultPeer (s0 : ServerState) (email device : String) :
    ServerState × Except String Unit :=
  match GetUser s0 email with
  | none => (s0, .ok ())
  | some eu =>
    if s0.createDefaultPeer then
      if (GetPeersByMail s0 email).length = 0 then
        bindStep (CreatePeer s0 device
            { identifier := eu.firstname ++ " " ++ eu.lastname ++ " (Default)"
              email := eu.email
              createdBy := eu.email
              updatedBy := eu.email })
            (withMessage ("failed to automatically create vpn peer for " ++ email))
            fun s1 u => (s1, .ok u)
      else (s0, .ok ())
    else (s0, .ok ())

/-- CreateUser(user, device): fails fast on an empty email; when any
record for the email already exists the deleted flag is cleared and the
call is redirected to UpdateUser; otherwise the record is created and
default-peer provisioning invoked. -/
def CreateUser (s0 : ServerState) (user : User) (device : String) :
    ServerState × Except String Unit :=
  if user.email = "" then (s0, .error "cannot create user with empty email address")
  else
    match GetUserUnscoped s0 user.email with
    | some _ => UpdateUser s0 { user with deletedAt := {} }
    | none =>
      bindStep (usersCreateUser s0 user)
          (withMessage "failed to create user in manager") fun s1 _ =>
      CreateUserDefaultPeer s1 user.email device

/-!
Frame lemmas: which parts of the state each primitive leaves untouched.
-/

theorem writeCfg_frame (s : ServerState) (d : String) :
    (WriteWireGuardConfigFile s d).1.peers = s.peers ∧
    (WriteWireGuardConfigFile s d).1.wg = s.wg ∧
    (WriteWireGuardConfigFile s d).1.users = s.users ∧
    (WriteWireGuardConfigFile s d).1.failures = s.failures := by
  unfold WriteWireGuardConfigFile
  split
  · simp
  · split <;> simp

theorem wgAddPeer_frame (s : ServerState) (d : String) (c : PeerConfig) :
    (wgAddPeer s d c).1.peers = s.peers ∧
    (wgAddPeer s d c).1.users = s.users ∧
    (wgAddPeer s d c).1.failures = s.failures ∧
    (wgAddPeer s d c).1.nextAddr = s.nextAddr := by
  unfold wgAddPeer
  split <;> simp

theorem wgUpdatePeerCfg_frame (s : ServerState) (d : String) (c : PeerConfig) :
    (wgUpdatePeerCfg s d c).1.peers = s.peers ∧
    (wgUpdatePeerCfg s d c).1.users = s.users ∧
    (wgUpdatePeerCfg s d c).1.failures = s.failures := by
  unfold wgUpdatePeerCfg
  split <;> simp

theorem wgRemovePeer_frame (s : ServerState) (d k : String) :
    (wgRemovePeer s d k).1.peers = s.peers ∧
    (wgRemovePeer s d k).1.users = s.users ∧
    (wgRemovePeer s d k).1.failures = s.failures := by
  unfold wgRemovePeer
  split <;> simp

theorem peersUpdatePeer_frame (s : ServerState) (p : Peer) :
    (peersUpdatePeer s p).1.wg = s.wg ∧
    (peersUpdatePeer s p).1.users = s.users ∧
    (peersUpdatePeer s p).1.failures = s.failures := by
  unfold peersUpdatePeer
  split <;> simp

theorem find?_map_replace (l : List Peer) (p : Peer)
    (h : ∃ q ∈ l, q.publicKey = p.publicKey) :
    (l.map (fun q => if q.publicKey = p.publicKey then p else q)).find?
      (fun q => decide (q.publicKey = p.publicKey)) = some p := by
  induction l with
  | nil => simp at h
  | cons x xs ih =>
    by_cases hx : x.publicKey = p.publicKey
    · simp [List.find?, hx]
    · rw [List.map_cons, if_neg hx, List.find?_cons_of_neg]
      · apply ih
        rcases h with ⟨q, hq, hqk⟩
        rcases List.mem_cons.mp hq with rfl | hq2
        · exact absurd hqk hx
        · exact ⟨q, hq2, hqk⟩
      · simp [hx]

/-!
Rewrite toolkit: each fallible primitive written as an explicit result in
its success and failure cases.
-/

theorem bindStep_ok {α β : Type} (r : ServerState × Except String α) (w : String → String)
    (k : ServerState → α → ServerState × Except String β) (s : ServerState) (a : α)
    (h : r = (s, .ok a)) : bindStep r w k = k s a := by
  rw [h, bindStep]

theorem bindStep_error {α β : Type} (r : ServerState × Except String α) (w : String → String)
    (k : ServerState → α → ServerState × Except String β) (s : ServerState) (e : String)
    (h : r = (s, .error e)) : bindStep r w k = (s, .error (w e)) := by
  rw [h, bindStep]

theorem wgAddPeer_ok (s : ServerState) (d : String) (c : PeerConfig)
    (h : CallId.wgAdd d c.publicKey ∉ s.failures) :
    wgAddPeer s d c = ({ s with wg := s.wg ++ [(d, c)] }, .ok ()) := by
  unfold wgAddPeer
  rw [if_neg h]

theorem wgAddPeer_fail (s : ServerState) (d : String) (c : PeerConfig)
    (h : CallId.wgAdd d c.publicKey ∈ s.failures) :
    wgAddPeer s d c = (s, .error "device error") := by
  unfold wgAddPeer
  rw [if_pos h]

theorem wgUpdatePeerCfg_ok (s : ServerState) (d : String) (c : PeerConfig)
    (h : CallId.wgUpdate d c.publicKey ∉ s.failures) :
    wgUpdatePeerCfg s d c =
      ({ s with wg := s.wg.map (fun e =>
          if e.1 = d ∧ e.2.publicKey = c.publicKey then (d, c) else e) }, .ok ()) := by
  unfold wgUpdatePeerCfg
  rw [if_neg h]

theorem wgUpdatePeerCfg_fail (s : ServerState) (d : String) (c : PeerConfig)
    (h : CallId.wgUpdate d c.publicKey ∈ s.failures) :
    wgUpdatePeerCfg s d c = (s, .error "device error") := by
  unfold wgUpdatePeerCfg
  rw [if_pos h]

theorem wgRemovePeer_ok (s : ServerState) (d k : String)
    (h : CallId.wgRemove d k ∉ s.failures) :
    wgRemovePeer s d k =
      ({ s with wg := s.wg.filter (fun e => decide (¬ (e.1 = d ∧ e.2.publicKey = k))) },
       .ok ()) := by
  unfold wgRemovePeer
  rw [if_neg h]

theorem wgRemovePeer_fail (s : ServerState) (d k : String)
    (h : CallId.wgRemove d k ∈ s.failures) :
    wgRemovePeer s d k = (s, .error "device error") := by
  unfold wgRemovePeer
  rw [if_pos h]

theorem peersCreatePeer_ok (s : ServerState) (p : Peer)
    (h : CallId.repoCreatePeer p.publicKey ∉ s.failures) :
    peersCreatePeer s p = ({ s with peers := s.peers ++ [p] }, .ok ()) := by
  unfold peersCreatePeer
  rw [if_neg h]

theorem peersCreatePeer_fail (s : ServerState) (p : Peer)
    (h : CallId.repoCreatePeer p.publicKey ∈ s.failures) :
    peersCreatePeer s p = (s, .error "database error") := by
  unfold peersCreatePeer
  rw [if_pos h]

theorem peersUpdatePeer_ok (s : ServerState) (p : Peer)
    (h : CallId.repoUpdatePeer p.publicKey ∉ s.failures) :
    peersUpdatePeer s p =
      ({ s with peers := s.peers.map (fun q => if q.publicKey = p.publicKey then p else q) },
       .ok ()) := by
  unfold peersUpdatePeer
  rw [if_neg h]

theorem peersUpdatePeer_fail (s : ServerState) (p : Peer)
    (h : CallId.repoUpdatePeer p.publicKey ∈ s.failures) :
    peersUpdatePeer s p = (s, .error "database error") := by
  unfold peersUpdatePeer
  rw [if_pos h]

theorem peersDeletePeer_ok (s : ServerState) (p : Peer)
    (h : CallId.repoDeletePeer p.publicKey ∉ s.failures) :
    peersDeletePeer s p =
      ({ s with peers := s.peers.filter (fun q => decide (¬ q.publicKey = p.publicKey)) },
       .ok ()) := by
  unfold peersDeletePeer
  rw [if_neg h]

theorem peersDeletePeer_fail (s : ServerState) (p : Peer)
    (h : CallId.repoDeletePeer p.publicKey ∈ s.failures) :
    peersDeletePeer s p = (s, .error "database error") := by
  unfold peersDeletePeer
  rw [if_pos h]

theorem usersUpdateUser_ok (s : ServerState) (u : User)
    (h : CallId.userUpdate u.email ∉ s.failures) :
    usersUpdateUser s u =
      ({ s with users := s.users.map (fun v => if v.email = u.email then u else v) }, .ok ()) := by
  unfold usersUpdateUser
  rw [if_neg h]

theorem usersUpdateUser_fail (s : ServerState) (u : User)
    (h : CallId.userUpdate u.email ∈ s.failures) :
    usersUpdateUser s u = (s, .error "database error") := by
  unfold usersUpdateUser
  rw [if_pos h]

theorem writeCfg_disabled (s : ServerState) (d : String) (h : s.cfgPath = "") :
    WriteWireGuardConfigFile s d = (s, .ok ()) := by
  unfold WriteWireGuardConfigFile
  rw [if_pos h]

theorem updatePeer_stale_ptr_eq (s : ServerState) (peer : Peer) (a : Nat)
    (hda : peer.deactivatedAt = some a) (hv : a ≠ s.nextAddr) :
    UpdatePeer s peer =
      bindStep (peersUpdatePeer { s with nextAddr := s.nextAddr + 1 } peer)
        (withMessage "failed to update peer") (fun s3 _ =>
      WriteWireGuardConfigFile s3 peer.deviceName) := by
  have h1 : (peer.deactivatedAt = some s.nextAddr) = False := by
    simp only [hda, Option.some.injEq, eq_iff_iff, iff_false]
    exact hv
  have h2 : (peer.deactivatedAt = none) = False := by
    simp only [hda, reduceCtorEq]
  unfold UpdatePeer allocAddr
  simp only [h1, h2, false_and, if_false, ite_false]
  rfl

/-- C1: the claim says a peer whose incoming DeactivatedAt matches the
reference timestamp passed to UpdatePeer is removed from the Interface
Controller peer set.  The code compares the stored DeactivatedAt pointer
with the address of the by-value parameter copy, which is freshly
allocated, so the comparison is false for every pointer the caller can
have stored: UpdatePeer leaves the live interface state unchanged for
every deactivated peer, while the repository record is indeed updated and
remains retrievable with DeactivatedAt still populated. -/
theorem updatePeer_deactivated_interface_unchanged (s : ServerState) (peer : Peer) (a : Nat)
    (hda : peer.deactivatedAt = some a) (hv : a < s.nextAddr) :
    (UpdatePeer s peer).1.wg = s.wg ∧
    (CallId.repoUpdatePeer peer.publicKey ∉ s.failures →
      (∃ q ∈ s.peers, q.publicKey = peer.publicKey) →
      (GetPeerByKey (UpdatePeer s peer).1 peer.publicKey).map Peer.deactivatedAt
        = some (some a)) := by
  rw [updatePeer_stale_ptr_eq s peer a hda (by omega)]
  by_cases hf : CallId.repoUpdatePeer peer.publicKey ∈ s.failures
  · rw [bindStep_error _ _ _ _ _
      (peersUpdatePeer_fail { s with nextAddr := s.nextAddr + 1 } peer hf)]
    exact ⟨rfl, fun hnf _ => absurd hf hnf⟩
  · rw [bindStep_ok _ _ _ _ _
      (peersUpdatePeer_ok { s with nextAddr := s.nextAddr + 1 } peer hf)]
    constructor
    · exact (writeCfg_frame _ _).2.1
    · intro _ hex
      unfold GetPeerByKey
      rw [(writeCfg_frame _ _).1]
      show (((s.peers.map fun q => if q.publicKey = peer.publicKey then peer else q).find?
        (fun p => decide (p.publicKey = peer.publicKey))).map _).map Peer.deactivatedAt = _
      rw [find?_map_replace _ _ hex]
      simp [decorate, hda]

/-!
Concrete example world used by witnesses and counterexamples.
-/

/-- A peer configured on device wg0 whose DeactivatedAt points to a stored
timestamp at address 0. -/
def peerK : Peer :=
  { publicKey := "K", deviceName := "wg0", ips := ["10.0.0.2"], deactivatedAt := some 0 }

/-- A world where peerK is persisted and live, and the address 0 stored in
its DeactivatedAt was allocated earlier (the counter is past it). -/
def stateK : ServerState :=
  { peers := [peerK], wg := [("wg0", peerK.getConfig)], nextAddr := 1 }

/-- Witness for the C1 theorem at its concrete failing input: peerK is
deactivated via a stored pointer (address 0), the address counter is past
it, and after UpdatePeer the live interface still holds peerK while the
repository record keeps DeactivatedAt populated. -/
theorem updatePeer_deactivated_interface_unchanged_witness :
    peerK.deactivatedAt = some 0 ∧ 0 < stateK.nextAddr ∧
    (UpdatePeer stateK peerK).1.wg = stateK.wg ∧
    wgContains (UpdatePeer stateK peerK).1.wg "wg0" "K" = true ∧
    (GetPeerByKey (UpdatePeer stateK peerK).1 peerK.publicKey).map Peer.deactivatedAt
      = some (some 0) :=
  ⟨rfl, by decide,
   (updatePeer_deactivated_interface_unchanged stateK peerK 0 rfl (by decide)).1,
   by rw [(updatePeer_deactivated_interface_unchanged stateK peerK 0 rfl (by decide)).1]; rfl,
   (updatePeer_deactivated_interface_unchanged stateK peerK 0 rfl (by decide)).2
     (by decide) ⟨peerK, by decide, rfl⟩⟩

theorem wgContains_filter_out (l : List (String × PeerConfig)) (d k : String) :
    wgContains (l.filter (fun e => decide (¬ (e.1 = d ∧ e.2.publicKey = k)))) d k = false := by
  simp only [wgContains, List.any_eq_false, List.mem_filter, decide_eq_true_eq]
  rintro e ⟨_, hcond⟩
  exact hcond

theorem find?_filter_out (l : List Peer) (k : String) :
    (l.filter (fun q => decide (¬ q.publicKey = k))).find?
      (fun p => decide (p.publicKey = k)) = none := by
  rw [List.find?_eq_none]
  intro p hp
  simp only [decide_eq_true_eq]
  exact (of_decide_eq_true (List.mem_filter.mp hp).2)

theorem DeletePeer_ok_eq (s : ServerState) (peer : Peer)
    (hr : CallId.wgRemove peer.deviceName peer.publicKey ∉ s.failures)
    (hd : CallId.repoDeletePeer peer.publicKey ∉ s.failures) :
    DeletePeer s peer = WriteWireGuardConfigFile
      { s with
        wg := s.wg.filter (fun e => decide (¬ (e.1 = peer.deviceName ∧ e.2.publicKey = peer.publicKey))),
        peers := s.peers.filter (fun q => decide (¬ q.publicKey = peer.publicKey)) }
      peer.deviceName := by
  unfold DeletePeer
  simp only [wgRemovePeer_ok s peer.deviceName peer.publicKey hr, bindStep]
  simp only [peersDeletePeer_ok
    { s with wg := s.wg.filter (fun e => decide (¬ (e.1 = peer.deviceName ∧ e.2.publicKey = peer.publicKey))) }
    peer hd, bindStep]

/-- C3: DeletePeer removes the peer from the Interface Controller first
and only then deletes it from the repository: when the interface-removal
step fails, DeletePeer returns the wrapped error and the whole state, the
repository record included, is untouched; when DeletePeer succeeds, the
peer is gone from the live interface of its device and GetPeerByKey for
its key returns absent. -/
theorem deletePeer_interface_gates_repository (s : ServerState) (peer : Peer) :
    (CallId.wgRemove peer.deviceName peer.publicKey ∈ s.failures →
      DeletePeer s peer =
        (s, .error (withMessage "failed to remove WireGuard peer" "device error"))) ∧
    ((DeletePeer s peer).2 = .ok () →
      wgContains (DeletePeer s peer).1.wg peer.deviceName peer.publicKey = false ∧
      GetPeerByKey (DeletePeer s peer).1 peer.publicKey = none) := by
  constructor
  · intro h
    unfold DeletePeer
    rw [bindStep_error _ _ _ _ _ (wgRemovePeer_fail s peer.deviceName peer.publicKey h)]
  · intro hok
    by_cases hr : CallId.wgRemove peer.deviceName peer.publicKey ∈ s.failures
    · unfold DeletePeer at hok
      rw [bindStep_error _ _ _ _ _ (wgRemovePeer_fail s peer.deviceName peer.publicKey hr)] at hok
      simp at hok
    · by_cases hd : CallId.repoDeletePeer peer.publicKey ∈ s.failures
      · unfold DeletePeer at hok
        simp only [wgRemovePeer_ok s peer.deviceName peer.publicKey hr, bindStep,
          peersDeletePeer_fail
            { s with wg := s.wg.filter (fun e => decide (¬ (e.1 = peer.deviceName ∧ e.2.publicKey = peer.publicKey))) }
            peer hd] at hok
        simp at hok
      · rw [DeletePeer_ok_eq s peer hr hd]
        constructor
        · rw [(writeCfg_frame _ _).2.1]
          exact wgContains_filter_out s.wg peer.deviceName peer.publicKey
        · unfold GetPeerByKey
          rw [(writeCfg_frame _ _).1]
          simp only [find?_filter_out, Option.map_none']

/-- A live, persisted peer and two worlds for the DeletePeer witness: one
with no failures, one where the interface removal call fails. -/
def peerD3 : Peer := { publicKey := "D", deviceName := "wg0", ips := ["10.0.0.9"] }

def stateD3 : ServerState := { peers := [peerD3], wg := [("wg0", peerD3.getConfig)] }

def stateD3f : ServerState := { stateD3 with failures := [CallId.wgRemove "wg0" "D"] }

/-- Witness for the C3 theorem: deleting peerD3 without failures succeeds
and the peer is absent from the interface and the repository afterwards;
with the interface removal failing, DeletePeer errors and the state is
unchanged. -/
theorem deletePeer_interface_gates_repository_witness :
    ((DeletePeer stateD3 peerD3).2 = .ok () ∧
     wgContains (DeletePeer stateD3 peerD3).1.wg "wg0" "D" = false ∧
     GetPeerByKey (DeletePeer stateD3 peerD3).1 "D" = none) ∧
    (CallId.wgRemove "wg0" "D" ∈ stateD3f.failures ∧
     DeletePeer stateD3f peerD3 =
       (stateD3f, .error (withMessage "failed to remove WireGuard peer" "device error"))) :=
  ⟨⟨rfl, ((deletePeer_interface_gates_repository stateD3 peerD3).2 rfl).1,
    ((deletePeer_interface_gates_repository stateD3 peerD3).2 rfl).2⟩,
   ⟨by decide, (deletePeer_interface_gates_repository stateD3f peerD3).1 (by decide)⟩⟩

/-- Two states agree on everything except the external randomness streams:
same repositories, same live interface, same configuration and counters. -/
def sameCore (s t : ServerState) : Prop :=
  t.devices = s.devices ∧ t.peers = s.peers ∧ t.users = s.users ∧ t.wg = s.wg ∧
  t.pools = s.pools ∧ t.failures = s.failures ∧ t.nextAddr = s.nextAddr ∧
  t.cfgPath = s.cfgPath ∧ t.cfgWrites = s.cfgWrites ∧ t.createDefaultPeer = s.createDefaultPeer

theorem sameCore_refl (s : ServerState) : sameCore s s := by
  unfold sameCore
  simp

theorem sameCore_trans {s t u : ServerState} (h1 : sameCore s t) (h2 : sameCore t u) :
    sameCore s u := by
  unfold sameCore at h1 h2 ⊢
  obtain ⟨a1, a2, a3, a4, a5, a6, a7, a8, a9, a10⟩ := h1
  obtain ⟨b1, b2, b3, b4, b5, b6, b7, b8, b9, b10⟩ := h2
  exact ⟨b1.trans a1, b2.trans a2, b3.trans a3, b4.trans a4, b5.trans a5,
         b6.trans a6, b7.trans a7, b8.trans a8, b9.trans a9, b10.trans a10⟩

theorem regenerateKeys_core (s : ServerState) (p : Peer) :
    sameCore s (regenerateKeys s p).1 := by
  unfold regenerateKeys generateKey generatePrivateKey bindStep
  split
  · cases s.pskStream with
    | nil => exact sameCore_refl s
    | cons k rest =>
      cases s.kpStream with
      | nil => simp [sameCore]
      | cons kp rest2 => simp [sameCore]
  · exact sameCore_refl s

theorem createPeerPrepared_core (s : ServerState) (device : String) (peer0 : Peer) :
    sameCore s (createPeerPrepared s device peer0).1 := by
  unfold createPeerPrepared bindStep
  dsimp only
  split
  · rename_i st e heq
    injection heq with h1 h2
    subst h1
    exact sameCore_refl s
  · rename_i st pB heq
    injection heq with h1 h2
    subst h1
    split
    · rename_i st2 e2 heq2
      have h := regenerateKeys_core s pB
      rw [heq2] at h
      exact h
    · rename_i st2 pC heq2
      have h := regenerateKeys_core s pB
      rw [heq2] at h
      exact h

theorem assignIPs_ok_fields (s : ServerState) (device : String) (dev : Device) (pA pB : Peer)
    (h : assignIPs s device dev pA = .ok pB) :
    pB.deactivatedAt = pA.deactivatedAt ∧ pB.allowedIPsStr = pA.allowedIPsStr ∧
    pB.privateKey = pA.privateKey ∧ pB.publicKey = pA.publicKey ∧ pB.email = pA.email := by
  unfold assignIPs at h
  split at h
  · split at h
    · exact absurd h (by simp)
    · injection h with h1
      subst h1
      simp
  · injection h with h1
    subst h1
    simp

theorem regenerateKeys_ok_fields (s : ServerState) (p : Peer) (s2 : ServerState) (q : Peer)
    (h : regenerateKeys s p = (s2, .ok q)) :
    q.deactivatedAt = p.deactivatedAt ∧ q.allowedIPsStr = p.allowedIPsStr ∧
    q.ips = p.ips ∧ q.email = p.email ∧ q.deviceName = p.deviceName := by
  unfold regenerateKeys generateKey generatePrivateKey bindStep at h
  split at h
  · split at h
    · simp at h
    · beta_reduce at h
      split at h
      · simp at h
      · injection h with h1 h2
        injection h2 with h3
        subst h3
        simp
  · injection h with h1 h2
    injection h2 with h3
    subst h3
    simp

theorem regenerateKeys_gen_eq (s : ServerState) (p : Peer) (psk : String) (t1 : List String)
    (kp : KeyPair) (t2 : List KeyPair) (hpk : p.privateKey = "")
    (h1 : s.pskStream = psk :: t1) (h2 : s.kpStream = kp :: t2) :
    regenerateKeys s p = ({ s with pskStream := t1, kpStream := t2 },
      .ok { p with presharedKey := psk, privateKey := kp.priv, publicKey := kp.pub }) := by
  unfold regenerateKeys generateKey generatePrivateKey bindStep
  rw [if_pos hpk]
  simp only [h1, h2]

theorem regenerateKeys_skip_eq (s : ServerState) (p : Peer) (hpk : ¬ p.privateKey = "") :
    regenerateKeys s p = (s, .ok p) := by
  unfold regenerateKeys
  rw [if_neg hpk]

theorem createPeerPrepared_ok_fields (s : ServerState) (device : String) (peer0 : Peer)
    (s1 : ServerState) (peerD : Peer)
    (h : createPeerPrepared s device peer0 = (s1, .ok peerD)) :
    peerD.deviceName = (GetDevice s device).deviceName ∧
    peerD.allowedIPsStr = (GetDevice s device).allowedIPsStr ∧
    peerD.deactivatedAt = peer0.deactivatedAt ∧
    peerD.uid = uidOf peerD.publicKey := by
  unfold createPeerPrepared bindStep at h
  dsimp only at h
  split at h
  · simp at h
  · rename_i st pB heq
    injection heq with hq1 hq2
    subst hq1
    split at h
    · simp at h
    · rename_i st2 pC heq2
      injection h with h1 h2
      injection h2 with h2
      subst h2
      obtain ⟨a1, a2, a3, a4, a5⟩ := assignIPs_ok_fields _ _ _ _ _ hq2
      obtain ⟨b1, b2, b3, b4, b5⟩ := regenerateKeys_ok_fields _ _ _ _ heq2
      refine ⟨rfl, ?_, ?_, rfl⟩
      · simp only [b2, a2]
      · simp only [b1, a1]

theorem createPeerPrepared_foreign (s : ServerState) (device : String) (peer0 : Peer)
    (s1 : ServerState) (peerD : Peer) (psk : String) (t1 : List String)
    (kp : KeyPair) (t2 : List KeyPair)
    (hpk : peer0.privateKey = "") (h1 : s.pskStream = psk :: t1) (h2 : s.kpStream = kp :: t2)
    (h : createPeerPrepared s device peer0 = (s1, .ok peerD)) :
    peerD.publicKey = kp.pub ∧ peerD.privateKey = kp.priv ∧ peerD.presharedKey = psk ∧
    peerD.uid = uidOf kp.pub := by
  unfold createPeerPrepared bindStep at h
  dsimp only at h
  split at h
  · simp at h
  · rename_i st pB heq
    injection heq with hq1 hq2
    subst hq1
    obtain ⟨-, -, a3, -, -⟩ := assignIPs_ok_fields _ _ _ _ _ hq2
    have hpkB : pB.privateKey = "" := by
      rw [a3]
      exact hpk
    rw [regenerateKeys_gen_eq s pB psk t1 kp t2 hpkB h1 h2] at h
    injection h with hh1 hh2
    injection hh2 with hh2
    subst hh2
    simp

theorem CreatePeer_wgAddFail_eq (s : ServerState) (device : String) (peer0 : Peer)
    (s1 : ServerState) (peerD : Peer)
    (hprep : createPeerPrepared s device peer0 = (s1, .ok peerD))
    (hact : peerD.deactivatedAt = none)
    (hfail : CallId.wgAdd device peerD.publicKey ∈ s.failures) :
    CreatePeer s device peer0 =
      (s1, .error (withMessage "failed to add WireGuard peer" "device error")) := by
  have hc := createPeerPrepared_core s device peer0
  rw [hprep] at hc
  have hf1 : CallId.wgAdd device peerD.getConfig.publicKey ∈ s1.failures := by
    rw [hc.2.2.2.2.2.1]
    exact hfail
  unfold CreatePeer
  rw [bindStep_ok _ _ _ _ _ hprep]
  rw [if_pos hact]
  rw [bindStep_error _ _ _ _ _ (wgAddPeer_fail s1 device peerD.getConfig hf1)]
  rw [bindStep_error _ _ _ _ _ rfl]
  rfl

theorem CreatePeer_ok_shape (s : ServerState) (device : String) (peer0 : Peer)
    (hok : (CreatePeer s device peer0).2 = .ok ()) :
    ∃ s1 peerD, createPeerPrepared s device peer0 = (s1, .ok peerD) ∧
      (CreatePeer s device peer0).1.peers = s1.peers ++ [peerD] ∧
      (peerD.deactivatedAt = none →
        (CreatePeer s device peer0).1.wg = s1.wg ++ [(device, peerD.getConfig)]) ∧
      (¬ peerD.deactivatedAt = none → (CreatePeer s device peer0).1.wg = s1.wg) := by
  rcases hp : createPeerPrepared s device peer0 with ⟨s1, r⟩
  cases r with
  | error e =>
    unfold CreatePeer at hok
    rw [bindStep_error _ _ _ _ _ hp] at hok
    simp at hok
  | ok peerD =>
    refine ⟨s1, peerD, rfl, ?_⟩
    unfold CreatePeer at hok ⊢
    rw [bindStep_ok _ _ _ _ _ hp] at hok ⊢
    by_cases hact : peerD.deactivatedAt = none
    · rw [if_pos hact] at hok ⊢
      by_cases haf : CallId.wgAdd device peerD.getConfig.publicKey ∈ s1.failures
      · rw [bindStep_error _ _ _ _ _ (wgAddPeer_fail s1 device peerD.getConfig haf)] at hok
        rw [bindStep_error _ _ _ _ _ rfl] at hok
        simp at hok
      · rw [bindStep_ok _ _ _ _ _ (wgAddPeer_ok s1 device peerD.getConfig haf)] at hok ⊢
        rw [bindStep_ok _ _ _ _ _ rfl] at hok ⊢
        by_cases hcf : CallId.repoCreatePeer peerD.publicKey ∈ s1.failures
        · rw [bindStep_error _ _ _ _ _ (peersCreatePeer_fail
            { s1 with wg := s1.wg ++ [(device, peerD.getConfig)] } peerD hcf)] at hok
          simp at hok
        · rw [bindStep_ok _ _ _ _ _ (peersCreatePeer_ok
            { s1 with wg := s1.wg ++ [(device, peerD.getConfig)] } peerD hcf)] at hok ⊢
          refine ⟨?_, fun _ => ?_, fun hn => absurd hact hn⟩
          · rw [(writeCfg_frame _ _).1]
          · rw [(writeCfg_frame _ _).2.1]
    · rw [if_neg hact] at hok ⊢
      rw [bindStep_ok _ _ _ _ _ rfl] at hok ⊢
      by_cases hcf : CallId.repoCreatePeer peerD.publicKey ∈ s1.failures
      · rw [bindStep_error _ _ _ _ _ (peersCreatePeer_fail s1 peerD hcf)] at hok
        simp at hok
      · rw [bindStep_ok _ _ _ _ _ (peersCreatePeer_ok s1 peerD hcf)] at hok ⊢
        refine ⟨?_, fun ha => absurd ha hact, fun _ => ?_⟩
        · rw [(writeCfg_frame _ _).1]
        · rw [(writeCfg_frame _ _).2.1]

theorem assignIPs_deviceName (s : ServerState) (device : String) (dev : Device)
    (p : Peer) (z : String) :
    assignIPs s device dev { p with deviceName := z } =
      (assignIPs s device dev p).map (fun r => { r with deviceName := z }) := by
  unfold assignIPs
  dsimp only
  split
  · cases halloc : allocateIPs s device dev.ips <;> simp [Except.map]
  · simp [Except.map]

theorem regenerateKeys_deviceName (s : ServerState) (p : Peer) (z : String) :
    regenerateKeys s { p with deviceName := z } =
      ((regenerateKeys s p).1,
       (regenerateKeys s p).2.map (fun r => { r with deviceName := z })) := by
  unfold regenerateKeys generateKey generatePrivateKey bindStep
  dsimp only
  split
  · cases s.pskStream with
    | nil => simp [Except.map]
    | cons k rest =>
      cases s.kpStream with
      | nil => simp [Except.map]
      | cons kp rest2 => simp [Except.map]
  · simp [Except.map]

theorem createPeerPrepared_ignores (s : ServerState) (device : String) (peer0 : Peer)
    (x y : String) :
    createPeerPrepared s device { peer0 with deviceName := x, allowedIPsStr := y } =
      createPeerPrepared s device peer0 := by
  unfold createPeerPrepared
  dsimp only
  rw [show ({ peer0 with deviceName := x, allowedIPsStr := (GetDevice s device).allowedIPsStr } : Peer)
        = { ({ peer0 with allowedIPsStr := (GetDevice s device).allowedIPsStr } : Peer) with deviceName := x } from rfl]
  rw [assignIPs_deviceName]
  cases ha : assignIPs s device (GetDevice s device)
      { peer0 with allowedIPsStr := (GetDevice s device).allowedIPsStr } with
  | error e => simp [Except.map, bindStep]
  | ok pB =>
    simp only [Except.map, bindStep]
    rw [regenerateKeys_deviceName]
    rcases hr : regenerateKeys s pB with ⟨s2, r2⟩
    cases r2 with
    | error e2 => simp [Except.map, bindStep]
    | ok pC => simp [Except.map, bindStep]

/-- C2: for an active incoming peer (DeactivatedAt nil), CreatePeer calls
the Interface Controller AddPeer before the repository write: when AddPeer
fails, CreatePeer returns the wrapped error and the state it returns has
the repositories and the live interface exactly as before the call — no
repository write happened. -/
theorem createPeer_interface_gates_repository (s : ServerState) (device : String) (peer0 : Peer)
    (s1 : ServerState) (peerD : Peer)
    (hprep : createPeerPrepared s device peer0 = (s1, .ok peerD))
    (hact : peer0.deactivatedAt = none)
    (hfail : CallId.wgAdd device peerD.publicKey ∈ s.failures) :
    CreatePeer s device peer0 =
      (s1, .error (withMessage "failed to add WireGuard peer" "device error")) ∧
    s1.peers = s.peers ∧ s1.wg = s.wg ∧ s1.users = s.users := by
  have hdact : peerD.deactivatedAt = none := by
    rw [(createPeerPrepared_ok_fields _ _ _ _ _ hprep).2.2.1]
    exact hact
  have hc := createPeerPrepared_core s device peer0
  rw [hprep] at hc
  exact ⟨CreatePeer_wgAddFail_eq s device peer0 s1 peerD hprep hdact hfail,
         hc.2.1, hc.2.2.2.1, hc.2.2.1⟩

def devW : Device := { deviceName := "wg0", allowedIPsStr := "10.0.0.0/24", ips := ["pool0"] }

def peerC2 : Peer := { publicKey := "P", privateKey := "x", ips := ["10.0.0.5"] }

def stateC2 : ServerState := { devices := [devW], failures := [CallId.wgAdd "wg0" "P"] }

def peerC2p : Peer :=
  { peerC2 with allowedIPsStr := "10.0.0.0/24", deviceName := "wg0", uid := uidOf "P" }

theorem createPeer_interface_gates_repository_witness :
    createPeerPrepared stateC2 "wg0" peerC2 = (stateC2, .ok peerC2p) ∧
    peerC2.deactivatedAt = none ∧
    CallId.wgAdd "wg0" peerC2p.publicKey ∈ stateC2.failures ∧
    CreatePeer stateC2 "wg0" peerC2 =
      (stateC2, .error (withMessage "failed to add WireGuard peer" "device error")) :=
  ⟨rfl, rfl, by decide,
   (createPeer_interface_gates_repository stateC2 "wg0" peerC2 stateC2 peerC2p rfl rfl
     (by decide)).1⟩

/-- C10: CreatePeer ignores the caller-supplied DeviceName and
AllowedIPsStr: replacing both fields of the input peer by arbitrary values
yields the very same result, and on success the persisted record (whose
configuration is also what was pushed) carries the owning device
DeviceName and AllowedIPsStr. -/
theorem createPeer_overwrites_device_fields (s : ServerState) (device : String) (peer0 : Peer)
    (x y : String) :
    CreatePeer s device { peer0 with deviceName := x, allowedIPsStr := y } =
      CreatePeer s device peer0 ∧
    ((CreatePeer s device peer0).2 = .ok () →
      ∃ s1 q, createPeerPrepared s device peer0 = (s1, .ok q) ∧
        (CreatePeer s device peer0).1.peers = s1.peers ++ [q] ∧
        q.deviceName = (GetDevice s device).deviceName ∧
        q.allowedIPsStr = (GetDevice s device).allowedIPsStr) := by
  constructor
  · unfold CreatePeer
    rw [createPeerPrepared_ignores]
  · intro hok
    obtain ⟨s1, q, hp, hpeers, -, -⟩ := CreatePeer_ok_shape s device peer0 hok
    obtain ⟨f1, f2, -, -⟩ := createPeerPrepared_ok_fields _ _ _ _ _ hp
    exact ⟨s1, q, hp, hpeers, f1, f2⟩

def peerC10 : Peer :=
  { publicKey := "Q", privateKey := "x", ips := ["10.0.0.6"],
    deviceName := "junkdev", allowedIPsStr := "junkips" }

def stateC10 : ServerState := { devices := [devW] }

theorem createPeer_overwrites_device_fields_witness :
    CreatePeer stateC10 "wg0" { peerC10 with deviceName := "other", allowedIPsStr := "other2" } =
      CreatePeer stateC10 "wg0" peerC10 ∧
    (CreatePeer stateC10 "wg0" peerC10).2 = .ok () ∧
    (∃ s1 q, createPeerPrepared stateC10 "wg0" peerC10 = (s1, .ok q) ∧
      (CreatePeer stateC10 "wg0" peerC10).1.peers = s1.peers ++ [q] ∧
      q.deviceName = (GetDevice stateC10 "wg0").deviceName ∧
      q.allowedIPsStr = (GetDevice stateC10 "wg0").allowedIPsStr) :=
  ⟨(createPeer_overwrites_device_fields stateC10 "wg0" peerC10 "other" "other2").1, rfl,
   (createPeer_overwrites_device_fields stateC10 "wg0" peerC10 "other" "other2").2 rfl⟩

def peerF : Peer := { publicKey := "callerpub", privateKey := "", ips := ["10.0.0.7"] }

def stateF : ServerState :=
  { devices := [devW], pskStream := ["genpsk"], kpStream := [{ priv := "genpriv", pub := "genpub" }] }

/-- C4 counterexample: a peer with empty private key and caller-supplied
public key callerpub, in a world whose generator yields the key pair
(genpriv, genpub).  CreatePeer succeeds, but the persisted record and the
pushed interface entry are identified by genpub, and GetPeerByKey for
callerpub returns absent: the peer is not identified by the
caller-supplied public key, contradicting the claim. -/
theorem createPeer_foreign_counterexample :
    peerF.privateKey = "" ∧ peerF.publicKey = "callerpub" ∧
    (CreatePeer stateF "wg0" peerF).2 = .ok () ∧
    (CreatePeer stateF "wg0" peerF).1.peers.map Peer.publicKey = ["genpub"] ∧
    ((CreatePeer stateF "wg0" peerF).1.wg.map fun e => e.2.publicKey) = ["genpub"] ∧
    GetPeerByKey (CreatePeer stateF "wg0" peerF).1 "callerpub" = none ∧
    ¬ "genpub" = "callerpub" :=
  ⟨rfl, rfl, rfl, rfl, rfl, rfl, by decide⟩

/-- C4 amended: for a peer passed to CreatePeer with an empty private
key, CreatePeer generates a fresh key pair and the peer it persists (and
pushes when active) is identified by the freshly generated public key;
the caller-supplied public key is overwritten. -/
theorem createPeer_foreign_generated_identity (s : ServerState) (device : String) (peer0 : Peer)
    (psk : String) (t1 : List String) (kp : KeyPair) (t2 : List KeyPair)
    (hpk : peer0.privateKey = "")
    (h1 : s.pskStream = psk :: t1) (h2 : s.kpStream = kp :: t2)
    (hok : (CreatePeer s device peer0).2 = .ok ()) :
    ∃ s1 q, createPeerPrepared s device peer0 = (s1, .ok q) ∧
      (CreatePeer s device peer0).1.peers = s1.peers ++ [q] ∧
      q.publicKey = kp.pub ∧ q.privateKey = kp.priv ∧ q.presharedKey = psk ∧
      q.uid = uidOf kp.pub ∧
      (q.deactivatedAt = none →
        (CreatePeer s device peer0).1.wg = s1.wg ++ [(device, q.getConfig)]) := by
  obtain ⟨s1, q, hp, hpeers, hwact, -⟩ := CreatePeer_ok_shape s device peer0 hok
  obtain ⟨g1, g2, g3, g4⟩ := createPeerPrepared_foreign _ _ _ _ _ _ _ _ _ hpk h1 h2 hp
  exact ⟨s1, q, hp, hpeers, g1, g2, g3, g4, hwact⟩

theorem createPeer_foreign_generated_identity_witness :
    peerF.privateKey = "" ∧ stateF.pskStream = "genpsk" :: [] ∧
    stateF.kpStream = { priv := "genpriv", pub := "genpub" } :: [] ∧
    (CreatePeer stateF "wg0" peerF).2 = .ok () ∧
    (∃ s1 q, createPeerPrepared stateF "wg0" peerF = (s1, .ok q) ∧
      (CreatePeer stateF "wg0" peerF).1.peers = s1.peers ++ [q] ∧
      q.publicKey = "genpub" ∧ q.privateKey = "genpriv" ∧ q.presharedKey = "genpsk" ∧
      q.uid = uidOf "genpub" ∧
      (q.deactivatedAt = none →
        (CreatePeer stateF "wg0" peerF).1.wg = s1.wg ++ [("wg0", q.getConfig)])) :=
  ⟨rfl, rfl, rfl, rfl,
   createPeer_foreign_generated_identity stateF "wg0" peerF "genpsk" []
     { priv := "genpriv", pub := "genpub" } [] rfl rfl rfl rfl⟩

theorem allocateIPs_ok_spec (s : ServerState) (device : String) :
    ∀ (pools l : List String), allocateIPs s device pools = .ok l →
      l.length = pools.length ∧
      ∀ i (h1 : i < pools.length) (h2 : i < l.length),
        GetAvailableIp s device pools[i] = .ok l[i] := by
  intro pools
  induction pools with
  | nil =>
    intro l h
    unfold allocateIPs at h
    injection h with h
    subst h
    simp
  | cons pool rest ih =>
    intro l h
    unfold allocateIPs at h
    cases hga : GetAvailableIp s device pool with
    | error e =>
      rw [hga] at h
      simp at h
    | ok ip =>
      rw [hga] at h
      cases hrest : allocateIPs s device rest with
      | error e =>
        rw [hrest] at h
        simp at h
      | ok ips =>
        rw [hrest] at h
        injection h with h
        subst h
        obtain ⟨hlen, hidx⟩ := ih ips hrest
        refine ⟨by simp [hlen], ?_⟩
        intro i h1 h2
        match i with
        | 0 => simpa using hga
        | Nat.succ j =>
          simp only [List.getElem_cons_succ]
          exact hidx j (by simpa using h1) (by simpa using h2)

theorem allocateIPs_error_of_mem (s : ServerState) (device : String) :
    ∀ (pools : List String) (pool : String) (e : String), pool ∈ pools →
      GetAvailableIp s device pool = .error e →
      ∃ e2, allocateIPs s device pools = .error e2 := by
  intro pools
  induction pools with
  | nil =>
    intro pool e hmem
    simp at hmem
  | cons p0 rest ih =>
    intro pool e hmem herr
    unfold allocateIPs
    cases hga : GetAvailableIp s device p0 with
    | error e0 => exact ⟨e0, rfl⟩
    | ok ip =>
      rcases List.mem_cons.mp hmem with rfl | hm2
      · rw [hga] at herr
        simp at herr
      · obtain ⟨e2, he2⟩ := ih pool e hm2 herr
        rw [he2]
        exact ⟨e2, rfl⟩

theorem prepareNewPeer_eq_ok (s : ServerState) (device : String) (ips : List String)
    (psk : String) (t1 : List String) (kp : KeyPair) (t2 : List KeyPair)
    (ha : allocateIPs s device (GetDevice s device).ips = .ok ips)
    (h1 : s.pskStream = psk :: t1) (h2 : s.kpStream = kp :: t2) :
    PrepareNewPeer s device =
      ({ s with pskStream := t1, kpStream := t2 },
       .ok { isNew := true, allowedIPsStr := (GetDevice s device).allowedIPsStr,
             ips := ips, ipsStr := listToString ips, presharedKey := psk,
             privateKey := kp.priv, publicKey := kp.pub, uid := uidOf kp.pub }) := by
  unfold PrepareNewPeer generateKey generatePrivateKey bindStep
  dsimp only
  rw [ha]
  simp only [h1, h2]

theorem prepareNewPeer_allocFail (s : ServerState) (device : String) (e : String)
    (ha : allocateIPs s device (GetDevice s device).ips = .error e) :
    PrepareNewPeer s device =
      (s, .error (withMessage "failed to get available IP addresses" e)) := by
  unfold PrepareNewPeer bindStep
  dsimp only
  rw [ha]

theorem prepareNewPeer_pskFail (s : ServerState) (device : String) (ips : List String)
    (ha : allocateIPs s device (GetDevice s device).ips = .ok ips)
    (hps : s.pskStream = []) :
    PrepareNewPeer s device = (s, .error (withMessage "failed to generate key" "rng error")) := by
  unfold PrepareNewPeer generateKey bindStep
  dsimp only
  rw [ha]
  simp only [hps]

theorem prepareNewPeer_kpFail (s : ServerState) (device : String) (ips : List String)
    (psk : String) (t1 : List String)
    (ha : allocateIPs s device (GetDevice s device).ips = .ok ips)
    (h1 : s.pskStream = psk :: t1) (hkp : s.kpStream = []) :
    PrepareNewPeer s device =
      ({ s with pskStream := t1 },
       .error (withMessage "failed to generate private key" "rng error")) := by
  unfold PrepareNewPeer generateKey generatePrivateKey bindStep
  dsimp only
  rw [ha]
  simp only [h1, hkp]

/-- C7: PrepareNewPeer returns a draft with exactly one allocated address
per device pool, in pool order, each the Allocator answer for that pool,
plus a generated preshared key, key pair and UID; it errors when any pool
is exhausted or any key generation fails; and in every case the
repositories, the live interface and the config output are untouched
(sameCore: only the modelled randomness streams are consumed). -/
theorem prepareNewPeer_draft_only (s : ServerState) (device : String) :
    sameCore s (PrepareNewPeer s device).1 ∧
    (∀ p, (PrepareNewPeer s device).2 = .ok p →
      p.ips.length = (GetDevice s device).ips.length ∧
      (∀ i (h1 : i < (GetDevice s device).ips.length) (h2 : i < p.ips.length),
        GetAvailableIp s device ((GetDevice s device).ips[i]) = .ok (p.ips[i])) ∧
      (∃ t1, s.pskStream = p.presharedKey :: t1) ∧
      (∃ kp t2, s.kpStream = kp :: t2 ∧ p.privateKey = kp.priv ∧ p.publicKey = kp.pub) ∧
      p.uid = uidOf p.publicKey ∧ p.isNew = true) ∧
    ((∃ pool ∈ (GetDevice s device).ips, ∃ e, GetAvailableIp s device pool = .error e) →
      ∃ e, (PrepareNewPeer s device).2 = .error e) ∧
    (s.pskStream = [] ∨ s.kpStream = [] → ∃ e, (PrepareNewPeer s device).2 = .error e) := by
  rcases halloc : allocateIPs s device (GetDevice s device).ips with e | ips
  · rw [prepareNewPeer_allocFail s device e halloc]
    refine ⟨sameCore_refl s, ?_, fun _ => ⟨_, rfl⟩, fun _ => ⟨_, rfl⟩⟩
    intro p hp
    simp at hp
  · rcases hps : s.pskStream with _ | ⟨psk, t1⟩
    · rw [prepareNewPeer_pskFail s device ips halloc hps]
      refine ⟨sameCore_refl s, ?_, fun _ => ⟨_, rfl⟩, fun _ => ⟨_, rfl⟩⟩
      intro p hp
      simp at hp
    · rcases hkp : s.kpStream with _ | ⟨kp, t2⟩
      · rw [prepareNewPeer_kpFail s device ips psk t1 halloc hps hkp]
        refine ⟨?_, ?_, fun _ => ⟨_, rfl⟩, fun _ => ⟨_, rfl⟩⟩
        · simp [sameCore]
        · intro p hp
          simp at hp
      · rw [prepareNewPeer_eq_ok s device ips psk t1 kp t2 halloc hps hkp]
        refine ⟨?_, ?_, ?_, ?_⟩
        · simp [sameCore]
        · intro p hp
          injection hp with hp
          subst hp
          obtain ⟨hlen, hidx⟩ := allocateIPs_ok_spec s device _ ips halloc
          exact ⟨hlen, fun i hh1 hh2 => hidx i hh1 hh2, ⟨t1, rfl⟩,
                 ⟨kp, t2, rfl, rfl, rfl⟩, rfl, rfl⟩
        · rintro ⟨pool, hmem, e, herr⟩
          obtain ⟨e2, he2⟩ := allocateIPs_error_of_mem s device _ pool e hmem herr
          rw [he2] at halloc
          simp at halloc
        · rintro (h | h) <;> simp at h

def devW2 : Device := { deviceName := "wg1", allowedIPsStr := "10.0.0.0/24", ips := ["pool0", "pool1"] }

def stateC7 : ServerState :=
  { devices := [devW2],
    pools := [("pool0", ["10.0.0.2", "10.0.0.3"]), ("pool1", ["10.1.0.2"])],
    pskStream := ["psk1"], kpStream := [{ priv := "k1", pub := "K1" }] }

def draftC7 : Peer :=
  { isNew := true, allowedIPsStr := "10.0.0.0/24", ips := ["10.0.0.2", "10.1.0.2"],
    ipsStr := listToString ["10.0.0.2", "10.1.0.2"], presharedKey := "psk1",
    privateKey := "k1", publicKey := "K1", uid := uidOf "K1" }

def stateC7x : ServerState := { stateC7 with pools := [("pool0", []), ("pool1", ["10.1.0.2"])] }

theorem prepareNewPeer_draft_only_witness :
    (PrepareNewPeer stateC7 "wg1").2 = .ok draftC7 ∧
    draftC7.ips.length = (GetDevice stateC7 "wg1").ips.length ∧
    (∃ pool ∈ (GetDevice stateC7x "wg1").ips, ∃ e, GetAvailableIp stateC7x "wg1" pool = .error e) ∧
    (∃ e, (PrepareNewPeer stateC7x "wg1").2 = .error e) :=
  ⟨rfl, ((prepareNewPeer_draft_only stateC7 "wg1").2.1 draftC7 rfl).1,
   ⟨"pool0", by decide, "no more available address in pool", rfl⟩,
   (prepareNewPeer_draft_only stateC7x "wg1").2.2.1
     ⟨"pool0", by decide, "no more available address in pool", rfl⟩⟩

theorem wgContains_append_left (l1 l2 : List (String × PeerConfig)) (d k : String)
    (h : wgContains l1 d k = true) : wgContains (l1 ++ l2) d k = true := by
  simp only [wgContains, List.any_append, Bool.or_eq_true]
  exact Or.inl h

theorem wgContains_append_self (l : List (String × PeerConfig)) (d : String) (cfg : PeerConfig) :
    wgContains (l ++ [(d, cfg)]) d cfg.publicKey = true := by
  simp [wgContains, List.any_append]

theorem restoreLoop_frame (device : String) :
    ∀ (l : List Peer) (s : ServerState),
      (restoreLoop s device l).1.peers = s.peers ∧
      (restoreLoop s device l).1.failures = s.failures ∧
      (restoreLoop s device l).1.users = s.users := by
  intro l
  induction l with
  | nil => exact fun s => ⟨rfl, rfl, rfl⟩
  | cons p rest ih =>
    intro s
    unfold restoreLoop
    split
    · by_cases hf : CallId.wgAdd device p.getConfig.publicKey ∈ s.failures
      · rw [bindStep_error _ _ _ _ _ (wgAddPeer_fail s device p.getConfig hf)]
        exact ⟨rfl, rfl, rfl⟩
      · rw [bindStep_ok _ _ _ _ _ (wgAddPeer_ok s device p.getConfig hf)]
        exact ih _
    · exact ih s

theorem restoreLoop_wg_mono (device d k : String) :
    ∀ (l : List Peer) (s : ServerState), wgContains s.wg d k = true →
      wgContains (restoreLoop s device l).1.wg d k = true := by
  intro l
  induction l with
  | nil => exact fun s h => h
  | cons p rest ih =>
    intro s h
    unfold restoreLoop
    split
    · by_cases hf : CallId.wgAdd device p.getConfig.publicKey ∈ s.failures
      · rw [bindStep_error _ _ _ _ _ (wgAddPeer_fail s device p.getConfig hf)]
        exact h
      · rw [bindStep_ok _ _ _ _ _ (wgAddPeer_ok s device p.getConfig hf)]
        exact ih _ (wgContains_append_left s.wg _ d k h)
    · exact ih s h

theorem restoreLoop_ok_adds (device : String) :
    ∀ (l : List Peer) (s : ServerState), (restoreLoop s device l).2 = .ok () →
      ∀ p ∈ l, p.livePeer = none →
        wgContains (restoreLoop s device l).1.wg device p.publicKey = true := by
  intro l
  induction l with
  | nil =>
    intro s _ p hp
    simp at hp
  | cons p0 rest ih =>
    intro s hok p hp habs
    unfold restoreLoop at hok ⊢
    by_cases hlp : p0.livePeer = none
    · rw [if_pos hlp] at hok ⊢
      by_cases hf : CallId.wgAdd device p0.getConfig.publicKey ∈ s.failures
      · rw [bindStep_error _ _ _ _ _ (wgAddPeer_fail s device p0.getConfig hf)] at hok
        simp at hok
      · rw [bindStep_ok _ _ _ _ _ (wgAddPeer_ok s device p0.getConfig hf)] at hok ⊢
        rcases List.mem_cons.mp hp with rfl | hp2
        · exact restoreLoop_wg_mono device device p.publicKey rest _
            (wgContains_append_self s.wg device p.getConfig)
        · exact ih _ hok p hp2 habs
    · rw [if_neg hlp] at hok ⊢
      rcases List.mem_cons.mp hp with rfl | hp2
      · exact absurd habs hlp
      · exact ih s hok p hp2 habs

theorem restoreLoop_ok_noFail (device : String) :
    ∀ (l : List Peer) (s : ServerState), (restoreLoop s device l).2 = .ok () →
      ∀ p ∈ l, p.livePeer = none → CallId.wgAdd device p.publicKey ∉ s.failures := by
  intro l
  induction l with
  | nil =>
    intro s _ p hp
    simp at hp
  | cons p0 rest ih =>
    intro s hok p hp habs
    unfold restoreLoop at hok
    by_cases hlp : p0.livePeer = none
    · rw [if_pos hlp] at hok
      by_cases hf : CallId.wgAdd device p0.getConfig.publicKey ∈ s.failures
      · rw [bindStep_error _ _ _ _ _ (wgAddPeer_fail s device p0.getConfig hf)] at hok
        simp at hok
      · rw [bindStep_ok _ _ _ _ _ (wgAddPeer_ok s device p0.getConfig hf)] at hok
        rcases List.mem_cons.mp hp with rfl | hp2
        · exact hf
        · exact ih _ hok p hp2 habs
    · rw [if_neg hlp] at hok
      rcases List.mem_cons.mp hp with rfl | hp2
      · exact absurd habs hlp
      · exact ih s hok p hp2 habs

theorem restoreLoop_noop (device : String) (s : ServerState) (l : List Peer)
    (h : ∀ p ∈ l, ¬ p.livePeer = none) :
    restoreLoop s device l = (s, .ok ()) := by
  induction l with
  | nil => rfl
  | cons p rest ih =>
    unfold restoreLoop
    rw [if_neg (h p (List.mem_cons_self p rest))]
    exact ih (fun q hq => h q (List.mem_cons_of_mem p hq))

theorem mem_getActivePeers_spec (s : ServerState) (device : String) (p : Peer)
    (h : p ∈ GetActivePeers s device) :
    p.deviceName = device ∧ p.deactivatedAt = none ∧
    (p.livePeer = none → wgContains s.wg p.deviceName p.publicKey = false) ∧
    (¬ p.livePeer = none → wgContains s.wg p.deviceName p.publicKey = true) := by
  unfold GetActivePeers at h
  rcases List.mem_map.mp h with ⟨q, hqmem, rfl⟩
  have hcond := of_decide_eq_true (List.mem_filter.mp hqmem).2
  unfold decorate
  by_cases hw : wgContains s.wg q.deviceName q.publicKey = true
  · rw [if_pos hw]
    exact ⟨hcond.1, hcond.2, fun hn => by simp at hn, fun _ => hw⟩
  · rw [if_neg hw]
    refine ⟨hcond.1, hcond.2, fun _ => by simpa using hw, fun hn => by simp at hn⟩

theorem getActivePeers_records (s : ServerState) (device : String) :
    GetActivePeers s device =
      (s.peers.filter (fun p => decide (p.deviceName = device ∧ p.deactivatedAt = none))).map
        (decorate s) := rfl

/-- C5 support: after a successful restore run, every active repository
peer of the device is present on the live interface. -/
theorem restore_run_covers (s : ServerState) (device : String)
    (hok : (RestoreWireGuardInterface s device).2 = .ok ()) :
    ∀ p ∈ GetActivePeers s device,
      wgContains (RestoreWireGuardInterface s device).1.wg device p.publicKey = true := by
  intro p hp
  obtain ⟨hdev, -, -, hlive⟩ := mem_getActivePeers_spec s device p hp
  by_cases habs : p.livePeer = none
  · exact restoreLoop_ok_adds device (GetActivePeers s device) s hok p hp habs
  · have hinit : wgContains s.wg device p.publicKey = true := by
      rw [← hdev]
      exact hlive habs
    exact restoreLoop_wg_mono device device p.publicKey (GetActivePeers s device) s hinit

/-- C5: RestoreWireGuardInterface is idempotent: after a successful run,
a second run returns the reached state unchanged (in particular the same
Interface Controller peer set), and after one run every active repository
peer of the device — the previously absent ones included — is present on
the live interface. -/
theorem restoreWireGuardInterface_idempotent (s : ServerState) (device : String)
    (hok : (RestoreWireGuardInterface s device).2 = .ok ()) :
    RestoreWireGuardInterface (RestoreWireGuardInterface s device).1 device
      = ((RestoreWireGuardInterface s device).1, .ok ()) ∧
    ∀ p ∈ GetActivePeers s device,
      wgContains (RestoreWireGuardInterface s device).1.wg device p.publicKey = true := by
  refine ⟨?_, restore_run_covers s device hok⟩
  have hpeers : (RestoreWireGuardInterface s device).1.peers = s.peers :=
    (restoreLoop_frame device _ s).1
  have hall : ∀ p ∈ GetActivePeers (RestoreWireGuardInterface s device).1 device,
      ¬ p.livePeer = none := by
    intro p hp
    unfold GetActivePeers at hp
    rcases List.mem_map.mp hp with ⟨q, hqmem, rfl⟩
    rw [hpeers] at hqmem
    have hcond := of_decide_eq_true (List.mem_filter.mp hqmem).2
    have hmem1 : decorate s q ∈ GetActivePeers s device := by
      unfold GetActivePeers
      exact List.mem_map.mpr ⟨q, hqmem, rfl⟩
    have hcov := restore_run_covers s device hok (decorate s q) hmem1
    have hcov2 : wgContains (RestoreWireGuardInterface s device).1.wg device q.publicKey
        = true := hcov
    unfold decorate
    rw [hcond.1]
    rw [if_pos hcov2]
    simp
  unfold RestoreWireGuardInterface
  exact restoreLoop_noop device _ _ hall

def peerR1 : Peer := { publicKey := "R1", deviceName := "wg0" }

def peerR2 : Peer := { publicKey := "R2", deviceName := "wg0" }

def stateR : ServerState := { peers := [peerR1, peerR2] }

theorem restoreWireGuardInterface_idempotent_witness :
    (RestoreWireGuardInterface stateR "wg0").2 = .ok () ∧
    RestoreWireGuardInterface (RestoreWireGuardInterface stateR "wg0").1 "wg0"
      = ((RestoreWireGuardInterface stateR "wg0").1, .ok ()) ∧
    ∀ p ∈ GetActivePeers stateR "wg0",
      wgContains (RestoreWireGuardInterface stateR "wg0").1.wg "wg0" p.publicKey = true :=
  ⟨rfl, (restoreWireGuardInterface_idempotent stateR "wg0" rfl).1,
   (restoreWireGuardInterface_idempotent stateR "wg0" rfl).2⟩

theorem restoreLoop_stops (device : String) (pf : Peer)
    (habs : pf.livePeer = none) :
    ∀ (l1 l2 : List Peer) (s : ServerState),
      CallId.wgAdd device pf.publicKey ∈ s.failures →
      restoreLoop s device (l1 ++ pf :: l2) = restoreLoop s device (l1 ++ [pf]) := by
  intro l1
  induction l1 with
  | nil =>
    intro l2 s hfail
    simp only [List.nil_append]
    unfold restoreLoop
    rw [if_pos habs, if_pos habs]
    rw [bindStep_error _ _ _ _ _ (wgAddPeer_fail s device pf.getConfig hfail)]
    rw [bindStep_error _ _ _ _ _ (wgAddPeer_fail s device pf.getConfig hfail)]
  | cons x rest ih =>
    intro l2 s hfail
    simp only [List.cons_append]
    unfold restoreLoop
    split
    · by_cases hf : CallId.wgAdd device x.getConfig.publicKey ∈ s.failures
      · rw [bindStep_error _ _ _ _ _ (wgAddPeer_fail s device x.getConfig hf)]
        rw [bindStep_error _ _ _ _ _ (wgAddPeer_fail s device x.getConfig hf)]
      · rw [bindStep_ok _ _ _ _ _ (wgAddPeer_ok s device x.getConfig hf)]
        rw [bindStep_ok _ _ _ _ _ (wgAddPeer_ok s device x.getConfig hf)]
        exact ih l2 _ hfail
    · exact ih l2 s hfail

theorem restoreLoop_added_keys (device d k : String) :
    ∀ (l : List Peer) (s : ServerState),
      wgContains (restoreLoop s device l).1.wg d k = true →
      wgContains s.wg d k = true ∨ k ∈ l.map Peer.publicKey := by
  intro l
  induction l with
  | nil => exact fun s h => Or.inl h
  | cons p rest ih =>
    intro s h
    unfold restoreLoop at h
    by_cases hlp : p.livePeer = none
    · rw [if_pos hlp] at h
      by_cases hf : CallId.wgAdd device p.getConfig.publicKey ∈ s.failures
      · rw [bindStep_error _ _ _ _ _ (wgAddPeer_fail s device p.getConfig hf)] at h
        exact Or.inl h
      · rw [bindStep_ok _ _ _ _ _ (wgAddPeer_ok s device p.getConfig hf)] at h
        rcases ih _ h with hin | hkey
        · simp only [wgContains, List.any_append, Bool.or_eq_true] at hin
          rcases hin with hin1 | hin2
          · exact Or.inl hin1
          · right
            simp only [List.any_cons, List.any_nil, Bool.or_false, decide_eq_true_eq] at hin2
            rw [← hin2.2]
            simp [Peer.getConfig]
        · exact Or.inr (by simp [hkey])
    · rw [if_neg hlp] at h
      rcases ih s h with hin | hkey
      · exact Or.inl hin
      · exact Or.inr (by simp [hkey])

/-- C9: RestoreWireGuardInterface is not best-effort: when the push of an
absent active peer pf fails, the run returns an error, and every absent
active peer listed after pf (whose key was not already pushed by the
peers before pf and differs from pf) is still absent from the live
interface after the run. -/
theorem restore_aborts_on_first_failure (s : ServerState) (device : String)
    (l1 l2 : List Peer) (pf : Peer)
    (hsplit : GetActivePeers s device = l1 ++ pf :: l2)
    (habs : pf.livePeer = none)
    (hfail : CallId.wgAdd device pf.publicKey ∈ s.failures) :
    (∃ e, (RestoreWireGuardInterface s device).2 = .error e) ∧
    ∀ q ∈ l2, q.livePeer = none → q.publicKey ∉ l1.map Peer.publicKey →
      ¬ q.publicKey = pf.publicKey →
      wgContains (RestoreWireGuardInterface s device).1.wg device q.publicKey = false := by
  unfold RestoreWireGuardInterface
  rw [hsplit, restoreLoop_stops device pf habs l1 l2 s hfail]
  constructor
  · cases hres : (restoreLoop s device (l1 ++ [pf])).2 with
    | error e => exact ⟨e, rfl⟩
    | ok u =>
      exfalso
      cases u
      exact restoreLoop_ok_noFail device (l1 ++ [pf]) s hres pf (by simp) habs hfail
  · intro q hq2 hqabs hkeys hkpf
    have hqmem : q ∈ GetActivePeers s device := by
      rw [hsplit]
      exact List.mem_append.mpr (Or.inr (List.mem_cons_of_mem pf hq2))
    obtain ⟨hdev, -, hnc, -⟩ := mem_getActivePeers_spec s device q hqmem
    have hinit : wgContains s.wg device q.publicKey = false := by
      rw [← hdev]
      exact hnc hqabs
    cases hc : wgContains (restoreLoop s device (l1 ++ [pf])).1.wg device q.publicKey with
    | false => rfl
    | true =>
      exfalso
      rcases restoreLoop_added_keys device device q.publicKey (l1 ++ [pf]) s hc with hin | hkey
      · rw [hinit] at hin
        exact absurd hin (by simp)
      · simp only [List.map_append, List.mem_append] at hkey
        rcases hkey with hk1 | hk2
        · exact hkeys hk1
        · simp at hk2
          exact hkpf hk2

def peerA9 : Peer := { publicKey := "A9", deviceName := "wg0" }

def peerB9 : Peer := { publicKey := "B9", deviceName := "wg0" }

def state9 : ServerState := { peers := [peerA9, peerB9], failures := [CallId.wgAdd "wg0" "A9"] }

theorem restore_aborts_on_first_failure_witness :
    GetActivePeers state9 "wg0" = [] ++ peerA9 :: [peerB9] ∧
    peerA9.livePeer = none ∧
    CallId.wgAdd "wg0" peerA9.publicKey ∈ state9.failures ∧
    (∃ e, (RestoreWireGuardInterface state9 "wg0").2 = .error e) ∧
    wgContains (RestoreWireGuardInterface state9 "wg0").1.wg "wg0" peerB9.publicKey = false :=
  ⟨rfl, rfl, by decide,
   (restore_aborts_on_first_failure state9 "wg0" [] [peerB9] peerA9 rfl rfl (by decide)).1,
   (restore_aborts_on_first_failure state9 "wg0" [] [peerB9] peerA9 rfl rfl (by decide)).2
     peerB9 (by decide) rfl (by decide) (by decide)⟩

/-- The external calls UpdatePeer can make for one specific peer: the
interface add or update for its key on its device, and the repository
update for its key.  When none of them is injected to fail, the peer can
be processed successfully. -/
def noPeerCallFailures (s : ServerState) (p : Peer) : Prop :=
  CallId.wgAdd p.deviceName p.publicKey ∉ s.failures ∧
  CallId.wgUpdate p.deviceName p.publicKey ∉ s.failures ∧
  CallId.repoUpdatePeer p.publicKey ∉ s.failures

/-- A key is in good reactivated standing in a state: the repository
holds a record under it with DeactivatedAt cleared, and the live
interface holds it on the given device. -/
def goodRecord (t : ServerState) (key dev : String) : Prop :=
  (∃ q ∈ t.peers, q.publicKey = key ∧ q.deactivatedAt = none) ∧
  wgContains t.wg dev key = true

theorem map_publicKey_replace (l : List Peer) (p : Peer) :
    ((l.map (fun q => if q.publicKey = p.publicKey then p else q)).map Peer.publicKey)
      = l.map Peer.publicKey := by
  induction l with
  | nil => rfl
  | cons x xs ih =>
    simp only [List.map_cons, ih, List.cons.injEq, and_true]
    by_cases hx : x.publicKey = p.publicKey
    · rw [if_pos hx, hx]
    · rw [if_neg hx]

theorem find?_eq_of_nodup (l : List Peer) (r : Peer) (k : String)
    (hn : (l.map Peer.publicKey).Nodup) (hr : r ∈ l) (hk : r.publicKey = k) :
    l.find? (fun q => decide (q.publicKey = k)) = some r := by
  induction l with
  | nil => simp at hr
  | cons x xs ih =>
    rcases List.mem_cons.mp hr with rfl | hr2
    · rw [List.find?_cons_of_pos]
      simp [hk]
    · rw [List.find?_cons_of_neg]
      · exact ih (by simpa using (List.nodup_cons.mp (by simpa using hn)).2) hr2
      · simp only [decide_eq_true_eq]
        intro hxk
        have hmem : r.publicKey ∈ xs.map Peer.publicKey := List.mem_map_of_mem _ hr2
        rw [hk, ← hxk] at hmem
        exact (List.nodup_cons.mp (by simpa using hn)).1 hmem

theorem wgContains_map_update_mono (l : List (String × PeerConfig)) (dev : String)
    (cfg : PeerConfig) (d k : String) (h : wgContains l d k = true) :
    wgContains (l.map (fun e =>
      if e.1 = dev ∧ e.2.publicKey = cfg.publicKey then (dev, cfg) else e)) d k = true := by
  simp only [wgContains, List.any_eq_true, decide_eq_true_eq] at h ⊢
  obtain ⟨e, he, hcond⟩ := h
  by_cases hm : e.1 = dev ∧ e.2.publicKey = cfg.publicKey
  · refine ⟨(dev, cfg), List.mem_map.mpr ⟨e, he, by rw [if_pos hm]⟩, ?_, ?_⟩
    · rw [← hm.1]
      exact hcond.1
    · rw [← hm.2]
      exact hcond.2
  · exact ⟨e, List.mem_map.mpr ⟨e, he, by rw [if_neg hm]⟩, hcond⟩

theorem updatePeer_tail_facts (s2 : ServerState) (p : Peer) :
    (bindStep (peersUpdatePeer s2 p) (withMessage "failed to update peer") fun s3 _ =>
        WriteWireGuardConfigFile s3 p.deviceName).1.failures = s2.failures ∧
    (bindStep (peersUpdatePeer s2 p) (withMessage "failed to update peer") fun s3 _ =>
        WriteWireGuardConfigFile s3 p.deviceName).1.users = s2.users ∧
    (bindStep (peersUpdatePeer s2 p) (withMessage "failed to update peer") fun s3 _ =>
        WriteWireGuardConfigFile s3 p.deviceName).1.wg = s2.wg ∧
    ((bindStep (peersUpdatePeer s2 p) (withMessage "failed to update peer") fun s3 _ =>
        WriteWireGuardConfigFile s3 p.deviceName).1.peers = s2.peers ∨
     (bindStep (peersUpdatePeer s2 p) (withMessage "failed to update peer") fun s3 _ =>
        WriteWireGuardConfigFile s3 p.deviceName).1.peers =
          s2.peers.map (fun q => if q.publicKey = p.publicKey then p else q)) := by
  by_cases hf : CallId.repoUpdatePeer p.publicKey ∈ s2.failures
  · rw [bindStep_error _ _ _ _ _ (peersUpdatePeer_fail s2 p hf)]
    exact ⟨rfl, rfl, rfl, Or.inl rfl⟩
  · rw [bindStep_ok _ _ _ _ _ (peersUpdatePeer_ok s2 p hf)]
    refine ⟨(writeCfg_frame _ _).2.2.2, (writeCfg_frame _ _).2.2.1,
            (writeCfg_frame _ _).2.1, Or.inr ?_⟩
    rw [(writeCfg_frame _ _).1]

theorem updatePeer_master (s : ServerState) (p : Peer) :
    (UpdatePeer s p).1.failures = s.failures ∧
    (UpdatePeer s p).1.users = s.users ∧
    ((UpdatePeer s p).1.peers = s.peers ∨
     (UpdatePeer s p).1.peers = s.peers.map (fun q => if q.publicKey = p.publicKey then p else q)) ∧
    (p.deactivatedAt = none →
      ∀ d k, wgContains s.wg d k = true → wgContains (UpdatePeer s p).1.wg d k = true) := by
  unfold UpdatePeer allocAddr
  dsimp only
  by_cases h1 : p.deactivatedAt = some s.nextAddr
  · rw [if_pos h1]
    by_cases hfr : CallId.wgRemove p.deviceName p.publicKey ∈ s.failures
    · rw [bindStep_error _ _ _ _ _
        (wgRemovePeer_fail { s with nextAddr := s.nextAddr + 1 } p.deviceName p.publicKey hfr)]
      exact ⟨rfl, rfl, Or.inl rfl, fun hd => by rw [hd] at h1; simp at h1⟩
    · rw [bindStep_ok _ _ _ _ _
        (wgRemovePeer_ok { s with nextAddr := s.nextAddr + 1 } p.deviceName p.publicKey hfr)]
      obtain ⟨t1, t2, t3, t4⟩ := updatePeer_tail_facts
        { s with nextAddr := s.nextAddr + 1,
                 wg := s.wg.filter (fun e => decide (¬ (e.1 = p.deviceName ∧ e.2.publicKey = p.publicKey))) } p
      exact ⟨t1, t2, t4, fun hd => by rw [hd] at h1; simp at h1⟩
  · rw [if_neg h1]
    by_cases h2 : p.deactivatedAt = none
    · by_cases hcl : (match GetPeerByKey { s with nextAddr := s.nextAddr + 1 } p.publicKey with
        | some q => q.livePeer.isSome
        | none => false) = true
      · rw [if_pos ⟨h2, hcl⟩]
        by_cases hfu : CallId.wgUpdate p.deviceName p.getConfig.publicKey ∈ s.failures
        · rw [bindStep_error _ _ _ _ _
            (wgUpdatePeerCfg_fail { s with nextAddr := s.nextAddr + 1 } p.deviceName p.getConfig hfu)]
          exact ⟨rfl, rfl, Or.inl rfl, fun _ _ _ h => h⟩
        · rw [bindStep_ok _ _ _ _ _
            (wgUpdatePeerCfg_ok { s with nextAddr := s.nextAddr + 1 } p.deviceName p.getConfig hfu)]
          obtain ⟨t1, t2, t3, t4⟩ := updatePeer_tail_facts
            { s with nextAddr := s.nextAddr + 1,
                     wg := s.wg.map (fun e =>
                       if e.1 = p.deviceName ∧ e.2.publicKey = p.getConfig.publicKey
                       then (p.deviceName, p.getConfig) else e) } p
          refine ⟨t1, t2, t4, fun _ d k h => ?_⟩
          rw [t3]
          exact wgContains_map_update_mono s.wg p.deviceName p.getConfig d k h
      · rw [if_neg (fun hc => hcl hc.2)]
        rw [if_pos ⟨h2, Bool.not_eq_true _ ▸ hcl⟩]
        by_cases hfa : CallId.wgAdd p.deviceName p.getConfig.publicKey ∈ s.failures
        · rw [bindStep_error _ _ _ _ _
            (wgAddPeer_fail { s with nextAddr := s.nextAddr + 1 } p.deviceName p.getConfig hfa)]
          exact ⟨rfl, rfl, Or.inl rfl, fun _ _ _ h => h⟩
        · rw [bindStep_ok _ _ _ _ _
            (wgAddPeer_ok { s with nextAddr := s.nextAddr + 1 } p.deviceName p.getConfig hfa)]
          obtain ⟨t1, t2, t3, t4⟩ := updatePeer_tail_facts
            { s with nextAddr := s.nextAddr + 1,
                     wg := s.wg ++ [(p.deviceName, p.getConfig)] } p
          refine ⟨t1, t2, t4, fun _ d k h => ?_⟩
          rw [t3]
          exact wgContains_append_left s.wg _ d k h
    · rw [if_neg (fun hc => h2 hc.1), if_neg (fun hc => h2 hc.1)]
      rw [bindStep_ok _ _ _ _ _ rfl]
      obtain ⟨t1, t2, t3, t4⟩ := updatePeer_tail_facts { s with nextAddr := s.nextAddr + 1 } p
      refine ⟨t1, t2, t4, fun _ d k h => ?_⟩
      rw [t3]
      exact h

theorem updatePeer_good_pres (t : ServerState) (p2 : Peer) (k d : String)
    (hd : p2.deactivatedAt = none) (hg : goodRecord t k d) :
    goodRecord (UpdatePeer t p2).1 k d := by
  obtain ⟨⟨q, hq, hqk, hqd⟩, hw⟩ := hg
  obtain ⟨-, -, hpeers, hmono⟩ := updatePeer_master t p2
  refine ⟨?_, hmono hd d k hw⟩
  rcases hpeers with h | h
  · rw [h]
    exact ⟨q, hq, hqk, hqd⟩
  · rw [h]
    by_cases hqp : q.publicKey = p2.publicKey
    · refine ⟨p2, List.mem_map.mpr ⟨q, hq, by rw [if_pos hqp]⟩, ?_, hd⟩
      rw [← hqp, hqk]
    · exact ⟨q, List.mem_map.mpr ⟨q, hq, by rw [if_neg hqp]⟩, hqk, hqd⟩

theorem updatePeer_tail_good (s2 : ServerState) (p2 : Peer) (r : Peer)
    (hd : p2.deactivatedAt = none)
    (hrf : CallId.repoUpdatePeer p2.publicKey ∉ s2.failures)
    (hr : r ∈ s2.peers) (hrk : r.publicKey = p2.publicKey)
    (hw : wgContains s2.wg p2.deviceName p2.publicKey = true) :
    goodRecord (bindStep (peersUpdatePeer s2 p2) (withMessage "failed to update peer") fun s3 _ =>
      WriteWireGuardConfigFile s3 p2.deviceName).1 p2.publicKey p2.deviceName := by
  rw [bindStep_ok _ _ _ _ _ (peersUpdatePeer_ok s2 p2 hrf)]
  constructor
  · rw [(writeCfg_frame _ _).1]
    exact ⟨p2, List.mem_map.mpr ⟨r, hr, by rw [if_pos hrk]⟩, rfl, hd⟩
  · rw [(writeCfg_frame _ _).2.1]
    exact hw

theorem updatePeer_activates (t : ServerState) (p2 : Peer) (r : Peer)
    (hd : p2.deactivatedAt = none)
    (hr : r ∈ t.peers) (hrk : r.publicKey = p2.publicKey) (hrd : r.deviceName = p2.deviceName)
    (hnodup : (t.peers.map Peer.publicKey).Nodup)
    (hnf : noPeerCallFailures t p2) :
    goodRecord (UpdatePeer t p2).1 p2.publicKey p2.deviceName := by
  have hfind : t.peers.find? (fun q => decide (q.publicKey = p2.publicKey)) = some r :=
    find?_eq_of_nodup t.peers r p2.publicKey hnodup hr hrk
  have hgp : GetPeerByKey { t with nextAddr := t.nextAddr + 1 } p2.publicKey
      = some (decorate { t with nextAddr := t.nextAddr + 1 } r) := by
    show (t.peers.find? (fun q => decide (q.publicKey = p2.publicKey))).map _ = _
    rw [hfind]
    rfl
  unfold UpdatePeer allocAddr
  dsimp only
  rw [if_neg (by simp [hd])]
  by_cases hw : wgContains t.wg r.deviceName r.publicKey = true
  · have hliveT : (match GetPeerByKey { t with nextAddr := t.nextAddr + 1 } p2.publicKey with
        | some q => q.livePeer.isSome
        | none => false) = true := by
      rw [hgp]
      show (decorate { t with nextAddr := t.nextAddr + 1 } r).livePeer.isSome = true
      unfold decorate
      show (if wgContains t.wg r.deviceName r.publicKey = true then some () else none).isSome
        = true
      rw [if_pos hw]
      rfl
    rw [if_pos ⟨hd, hliveT⟩]
    rw [bindStep_ok _ _ _ _ _
      (wgUpdatePeerCfg_ok { t with nextAddr := t.nextAddr + 1 } p2.deviceName p2.getConfig
        hnf.2.1)]
    refine updatePeer_tail_good _ p2 r hd ?_ ?_ hrk ?_
    · exact hnf.2.2
    · exact hr
    · have hw2 : wgContains t.wg p2.deviceName p2.publicKey = true := by
        rw [← hrd, ← hrk]
        exact hw
      exact wgContains_map_update_mono t.wg p2.deviceName p2.getConfig p2.deviceName
        p2.publicKey hw2
  · have hliveF : (match GetPeerByKey { t with nextAddr := t.nextAddr + 1 } p2.publicKey with
        | some q => q.livePeer.isSome
        | none => false) = false := by
      rw [hgp]
      show (decorate { t with nextAddr := t.nextAddr + 1 } r).livePeer.isSome = false
      unfold decorate
      show (if wgContains t.wg r.deviceName r.publicKey = true then some () else none).isSome
        = false
      rw [if_neg hw]
      rfl
    rw [if_neg (fun hc => by rw [hliveF] at hc; exact absurd hc.2 (by simp))]
    rw [if_pos ⟨hd, hliveF⟩]
    rw [bindStep_ok _ _ _ _ _
      (wgAddPeer_ok { t with nextAddr := t.nextAddr + 1 } p2.deviceName p2.getConfig hnf.1)]
    refine updatePeer_tail_good _ p2 r hd ?_ ?_ hrk ?_
    · exact hnf.2.2
    · exact hr
    · exact wgContains_append_self t.wg p2.deviceName p2.getConfig

theorem reactivatePeers_preserves_good (k d : String) :
    ∀ (L : List Peer) (t : ServerState), goodRecord t k d →
      goodRecord (reactivatePeers t L) k d := by
  intro L
  induction L with
  | nil => exact fun t h => h
  | cons p rest ih =>
    intro t h
    unfold reactivatePeers
    exact ih _ (updatePeer_good_pres t { p with deactivatedAt := none } k d rfl h)

theorem reactivatePeers_invariants :
    ∀ (L : List Peer) (t : ServerState),
      (reactivatePeers t L).failures = t.failures ∧
      (reactivatePeers t L).users = t.users ∧
      (reactivatePeers t L).peers.map Peer.publicKey = t.peers.map Peer.publicKey := by
  intro L
  induction L with
  | nil => exact fun t => ⟨rfl, rfl, rfl⟩
  | cons p rest ih =>
    intro t
    unfold reactivatePeers
    obtain ⟨i1, i2, i3⟩ := ih (UpdatePeer t { p with deactivatedAt := none }).1
    obtain ⟨m1, m2, mp, -⟩ := updatePeer_master t { p with deactivatedAt := none }
    refine ⟨i1.trans m1, i2.trans m2, i3.trans ?_⟩
    rcases mp with h | h
    · rw [h]
    · rw [h, map_publicKey_replace]

theorem updatePeer_record_pres (t : ServerState) (p2 : Peer) (key d : String)
    (hne : ¬ key = p2.publicKey)
    (h : ∃ r ∈ t.peers, r.publicKey = key ∧ r.deviceName = d) :
    ∃ r ∈ (UpdatePeer t p2).1.peers, r.publicKey = key ∧ r.deviceName = d := by
  obtain ⟨r, hr, hrk, hrd⟩ := h
  obtain ⟨-, -, hpeers, -⟩ := updatePeer_master t p2
  rcases hpeers with h | h
  · rw [h]
    exact ⟨r, hr, hrk, hrd⟩
  · rw [h]
    refine ⟨r, List.mem_map.mpr ⟨r, hr, ?_⟩, hrk, hrd⟩
    rw [if_neg (fun hc => hne (hrk ▸ hc))]

theorem reactivatePeers_good :
    ∀ (L : List Peer) (t : ServerState),
      (t.peers.map Peer.publicKey).Nodup →
      (∀ x ∈ L, ∃ r ∈ t.peers, r.publicKey = x.publicKey ∧ r.deviceName = x.deviceName) →
      (L.map Peer.publicKey).Nodup →
      ∀ x ∈ L, noPeerCallFailures t x →
        goodRecord (reactivatePeers t L) x.publicKey x.deviceName := by
  intro L
  induction L with
  | nil =>
    intro t _ _ _ x hx
    simp at hx
  | cons p rest ih =>
    intro t hnod hrec hLnod x hx hnf
    unfold reactivatePeers
    rcases List.mem_cons.mp hx with rfl | hx2
    · obtain ⟨r, hr, hrk, hrd⟩ := hrec x (List.mem_cons_self x rest)
      have hest : goodRecord (UpdatePeer t { x with deactivatedAt := none }).1
          x.publicKey x.deviceName :=
        updatePeer_activates t { x with deactivatedAt := none } r rfl hr hrk hrd hnod hnf
      exact reactivatePeers_preserves_good x.publicKey x.deviceName rest _ hest
    · have hkeyne : ∀ y ∈ rest, ¬ y.publicKey = p.publicKey := by
        intro y hy hk
        have hmemk : p.publicKey ∈ rest.map Peer.publicKey := by
          rw [← hk]
          exact List.mem_map_of_mem _ hy
        exact (List.nodup_cons.mp (by simpa using hLnod)).1 hmemk
      obtain ⟨m1, m2, mp, -⟩ := updatePeer_master t { p with deactivatedAt := none }
      refine ih ((UpdatePeer t { p with deactivatedAt := none }).1) ?_ ?_ ?_ x hx2 ?_
      · rcases mp with h | h
        · rw [h]
          exact hnod
        · rw [h, map_publicKey_replace]
          exact hnod
      · intro y hy
        exact updatePeer_record_pres t _ y.publicKey y.deviceName
          (fun hc => hkeyne y hy hc) (hrec y (List.mem_cons_of_mem p hy))
      · simpa using (List.nodup_cons.mp (by simpa using hLnod)).2
      · obtain ⟨f1, f2, f3⟩ := hnf
        rw [noPeerCallFailures, m1]
        exact ⟨f1, f2, f3⟩

theorem mem_getPeersByMail_spec (s : ServerState) (email : String) (p : Peer)
    (h : p ∈ GetPeersByMail s email) :
    ∃ q ∈ s.peers, q.email = email ∧ q.publicKey = p.publicKey ∧ q.deviceName = p.deviceName := by
  unfold GetPeersByMail at h
  rcases List.mem_map.mp h with ⟨q, hqmem, rfl⟩
  exact ⟨q, (List.mem_filter.mp hqmem).1,
    of_decide_eq_true (List.mem_filter.mp hqmem).2, rfl, rfl⟩

theorem getPeersByMail_keys_nodup (s : ServerState) (email : String)
    (hnod : (s.peers.map Peer.publicKey).Nodup) :
    ((GetPeersByMail s email).map Peer.publicKey).Nodup := by
  refine List.Nodup.sublist ?_ hnod
  unfold GetPeersByMail
  rw [List.map_map]
  have heq : (s.peers.filter (fun p => decide (p.email = email))).map
      (Peer.publicKey ∘ decorate s)
      = (s.peers.filter (fun p => decide (p.email = email))).map Peer.publicKey :=
    List.map_congr_left (fun q _ => rfl)
  rw [heq]
  exact (List.filter_sublist _).map Peer.publicKey

theorem updateUser_reactivates_core (s : ServerState) (user : User) (cu : User)
    (hnd : user.deletedAt.valid = false)
    (hcu : GetUserUnscoped s user.email = some cu)
    (hprev : cu.deletedAt.valid = true)
    (hupd : CallId.userUpdate user.email ∉ s.failures) :
    (UpdateUser s user).2 = .ok () ∧
    (UpdateUser s user).1.users =
      s.users.map (fun v => if v.email = user.email then user else v) ∧
    ((s.peers.map Peer.publicKey).Nodup →
      ∀ p ∈ s.peers, p.email = user.email → noPeerCallFailures s p →
        (∃ q ∈ (UpdateUser s user).1.peers, q.publicKey = p.publicKey ∧
          q.deactivatedAt = none) ∧
        wgContains (UpdateUser s user).1.wg p.deviceName p.publicKey = true) := by
  unfold UpdateUser
  rw [if_neg (by simp [hnd])]
  dsimp only
  rw [hcu]
  rw [bindStep_ok _ _ _ _ _ (usersUpdateUser_ok s user hupd)]
  dsimp only
  rw [if_pos hprev]
  refine ⟨rfl, ?_, ?_⟩
  · exact (reactivatePeers_invariants _ _).2.1
  · intro hnod p hp hmail hnf
    have hx : decorate { s with users := s.users.map (fun v => if v.email = user.email then user else v) } p ∈ GetPeersByMail { s with users := s.users.map (fun v => if v.email = user.email then user else v) } user.email := by
      unfold GetPeersByMail
      refine List.mem_map.mpr ⟨p, List.mem_filter.mpr ⟨hp, ?_⟩, rfl⟩
      simpa using hmail
    have hgood := reactivatePeers_good
      (GetPeersByMail { s with users := s.users.map (fun v => if v.email = user.email then user else v) } user.email)
      { s with users := s.users.map (fun v => if v.email = user.email then user else v) }
      hnod
      (fun x hxm => by
        obtain ⟨q, hq, -, hqk, hqd⟩ := mem_getPeersByMail_spec _ _ x hxm
        exact ⟨q, hq, hqk, hqd⟩)
      (getPeersByMail_keys_nodup _ user.email hnod)
      (decorate { s with users := s.users.map (fun v => if v.email = user.email then user else v) } p) hx hnf
    exact ⟨hgood.1, hgood.2⟩

instance (s : ServerState) (p : Peer) : Decidable (noPeerCallFailures s p) := by
  unfold noPeerCallFailures
  exact inferInstance

theorem map_email_replace (l : List User) (u : User) :
    ((l.map (fun v => if v.email = u.email then u else v)).map User.email)
      = l.map User.email := by
  induction l with
  | nil => rfl
  | cons x xs ih =>
    simp only [List.map_cons, ih, List.cons.injEq, and_true]
    by_cases hx : x.email = u.email
    · rw [if_pos hx, hx]
    · rw [if_neg hx]

/-- C6: for a user record previously soft-deleted and updated with the
deleted flag cleared, UpdateUser returns nil whatever per-peer failures
are injected (best-effort batch), and every owned peer whose own
interface/repository calls do not fail ends up reactivated: a repository
record under its key with DeactivatedAt cleared, and present on the live
interface of its device — injected failures on one owned peer do not
prevent the others from being processed. -/
theorem updateUser_reactivation_best_effort (s : ServerState) (user : User) (cu : User)
    (hnd : user.deletedAt.valid = false)
    (hcu : GetUserUnscoped s user.email = some cu)
    (hprev : cu.deletedAt.valid = true)
    (hupd : CallId.userUpdate user.email ∉ s.failures) :
    (UpdateUser s user).2 = .ok () ∧
    ((s.peers.map Peer.publicKey).Nodup →
      ∀ p ∈ s.peers, p.email = user.email → noPeerCallFailures s p →
        (∃ q ∈ (UpdateUser s user).1.peers, q.publicKey = p.publicKey ∧
          q.deactivatedAt = none) ∧
        wgContains (UpdateUser s user).1.wg p.deviceName p.publicKey = true) :=
  ⟨(updateUser_reactivates_core s user cu hnd hcu hprev hupd).1,
   (updateUser_reactivates_core s user cu hnd hcu hprev hupd).2.2⟩

def userC6 : User := { email := "u@x" }

def cuC6 : User := { email := "u@x", deletedAt := { valid := true } }

def peerE1 : Peer :=
  { publicKey := "E1", deviceName := "wg0", email := "u@x", deactivatedAt := some 0 }

def peerE2 : Peer :=
  { publicKey := "E2", deviceName := "wg0", email := "u@x", deactivatedAt := some 1 }

def stateC6 : ServerState :=
  { users := [cuC6], peers := [peerE1, peerE2], nextAddr := 2,
    failures := [CallId.wgAdd "wg0" "E1", CallId.wgUpdate "wg0" "E1",
                 CallId.repoUpdatePeer "E1"] }

theorem updateUser_reactivation_best_effort_witness :
    userC6.deletedAt.valid = false ∧
    GetUserUnscoped stateC6 "u@x" = some cuC6 ∧
    cuC6.deletedAt.valid = true ∧
    (UpdateUser stateC6 userC6).2 = .ok () ∧
    (∃ q ∈ (UpdateUser stateC6 userC6).1.peers, q.publicKey = peerE2.publicKey ∧
      q.deactivatedAt = none) ∧
    wgContains (UpdateUser stateC6 userC6).1.wg peerE2.deviceName peerE2.publicKey = true :=
  ⟨rfl, rfl, rfl,
   (updateUser_reactivation_best_effort stateC6 userC6 cuC6 rfl rfl rfl (by decide)).1,
   ((updateUser_reactivation_best_effort stateC6 userC6 cuC6 rfl rfl rfl (by decide)).2
     (by decide) peerE2 (by decide) rfl (by decide)).1,
   ((updateUser_reactivation_best_effort stateC6 userC6 cuC6 rfl rfl rfl (by decide)).2
     (by decide) peerE2 (by decide) rfl (by decide)).2⟩

/-- C8: CreateUser for an email whose record exists soft-deleted does not
create a duplicate: it routes through UpdateUser with the deleted flag
cleared (literal equality of results), the user list keeps exactly the
same emails with the record for this email now undeleted, and the peers
previously owned by the email are reactivated. -/
theorem createUser_resurrects (s : ServerState) (user : User) (device : String) (cu : User)
    (hmail : ¬ user.email = "")
    (hcu : GetUserUnscoped s user.email = some cu)
    (hprev : cu.deletedAt.valid = true)
    (hupd : CallId.userUpdate user.email ∉ s.failures) :
    CreateUser s user device = UpdateUser s { user with deletedAt := {} } ∧
    (CreateUser s user device).2 = .ok () ∧
    (CreateUser s user device).1.users.map User.email = s.users.map User.email ∧
    (∃ v ∈ (CreateUser s user device).1.users, v.email = user.email ∧
      v.deletedAt.valid = false) ∧
    ((s.peers.map Peer.publicKey).Nodup →
      ∀ p ∈ s.peers, p.email = user.email → noPeerCallFailures s p →
        (∃ q ∈ (CreateUser s user device).1.peers, q.publicKey = p.publicKey ∧
          q.deactivatedAt = none) ∧
        wgContains (CreateUser s user device).1.wg p.deviceName p.publicKey = true) := by
  have hroute : CreateUser s user device = UpdateUser s { user with deletedAt := {} } := by
    unfold CreateUser
    rw [if_neg hmail, hcu]
  obtain ⟨c1, c2, c3⟩ :=
    updateUser_reactivates_core s { user with deletedAt := {} } cu rfl hcu hprev hupd
  refine ⟨hroute, ?_, ?_, ?_, ?_⟩
  · rw [hroute]
    exact c1
  · rw [hroute, c2]
    exact map_email_replace s.users { user with deletedAt := {} }
  · rw [hroute, c2]
    have hcu2 : s.users.find? (fun u2 => decide (u2.email = user.email)) = some cu := hcu
    have hcumem : cu ∈ s.users := List.mem_of_find?_eq_some hcu2
    have hcueml : cu.email = user.email := by
      have hfs := List.find?_some hcu2
      simpa using hfs
    refine ⟨{ user with deletedAt := {} }, List.mem_map.mpr ⟨cu, hcumem, ?_⟩, rfl, rfl⟩
    rw [if_pos hcueml]
  · intro hnod p hp hmail2 hnf
    rw [hroute]
    exact c3 hnod p hp hmail2 hnf

def userC8 : User := { email := "r@x", firstname := "Re", lastname := "Surrect" }

def cuC8 : User := { email := "r@x", deletedAt := { valid := true } }

def peerE3 : Peer :=
  { publicKey := "E3", deviceName := "wg0", email := "r@x", deactivatedAt := some 0 }

def stateC8 : ServerState := { users := [cuC8], peers := [peerE3], nextAddr := 1 }

theorem createUser_resurrects_witness :
    ¬ userC8.email = "" ∧
    GetUserUnscoped stateC8 "r@x" = some cuC8 ∧
    cuC8.deletedAt.valid = true ∧
    CreateUser stateC8 userC8 "wg0" = UpdateUser stateC8 { userC8 with deletedAt := {} } ∧
    (CreateUser stateC8 userC8 "wg0").2 = .ok () ∧
    (CreateUser stateC8 userC8 "wg0").1.users.map User.email = stateC8.users.map User.email ∧
    (∃ v ∈ (CreateUser stateC8 userC8 "wg0").1.users, v.email = userC8.email ∧
      v.deletedAt.valid = false) ∧
    (∃ q ∈ (CreateUser stateC8 userC8 "wg0").1.peers, q.publicKey = peerE3.publicKey ∧
      q.deactivatedAt = none) ∧
    wgContains (CreateUser stateC8 userC8 "wg0").1.wg peerE3.deviceName peerE3.publicKey
      = true :=
  ⟨by decide, rfl, rfl,
   (createUser_resurrects stateC8 userC8 "wg0" cuC8 (by decide) rfl rfl (by decide)).1,
   (createUser_resurrects stateC8 userC8 "wg0" cuC8 (by decide) rfl rfl (by decide)).2.1,
   (createUser_resurrects stateC8 userC8 "wg0" cuC8 (by decide) rfl rfl (by decide)).2.2.1,
   (createUser_resurrects stateC8 userC8 "wg0" cuC8 (by decide) rfl rfl (by decide)).2.2.2.1,
   ((createUser_resurrects stateC8 userC8 "wg0" cuC8 (by decide) rfl rfl (by decide)).2.2.2.2
     (by decide) peerE3 (by decide) rfl (by decide)).1,
   ((createUser_resurrects stateC8 userC8 "wg0" cuC8 (by decide) rfl rfl (by decide)).2.2.2.2
     (by decide) peerE3 (by decide) rfl (by decide)).2⟩
